import Mathlib

/-!
Verification development for the "actualizacion-seguimiento-rechazos" workflow.

The development shallowly embeds the two core modules:
* `data_processor.py` — CSV validation (`validate_data`) and normalization
  (`transform_for_database`) over a tabular model (`DF`, column-major lists of
  `Cell`s, where `Cell.null` models a pandas NaN and `Cell.pyNone` a stored
  Python `None`);
* `database_manager.py` — the update/propagation engine (`update_rechazos`)
  and the two homologation derivers, over an explicit relational-store state
  (lists of records).  SQL text manipulation (single-quote escaping and
  re-parsing) round-trips, so queries are modeled directly as predicates on
  the stored values.
-/

/-- A cell of a pandas DataFrame: a string, an integer, a missing value,
or a timestamp (the `datetime.now()` stamps; kept abstract as a `Nat`).
Missing values carry их origin, because `astype(str)` renders them
differently: `null` is a float NaN (as produced by `read_csv` or
`to_numeric`), which stringifies to `"nan"`, while `pyNone` is the Python
`None` that `replace('nan', None)` stores in an object column, which
stringifies to `"None"`.  Both satisfy `pd.isnull`. -/
inductive Cell where
  | str : String → Cell
  | num : Int → Cell
  | null : Cell
  | pyNone : Cell
  | time : Nat → Cell
deriving DecidableEq, Repr

/-- Column-major DataFrame: ordered columns, each a name plus its cells. -/
structure DF where
  cols : List (String × List Cell)
deriving DecidableEq, Repr

/-- All columns have the height of the first column (pandas frames are
rectangular; the model allows ragged data, so theorems assume this). -/
def DF.Rectangular (df : DF) : Prop :=
  ∀ c ∈ df.cols, c.2.length = (df.cols.headD ("", [])).2.length

/-- Python `str.strip` on the character list: drop whitespace at both ends. -/
def trimChars (l : List Char) : List Char :=
  ((l.dropWhile Char.isWhitespace).reverse.dropWhile Char.isWhitespace).reverse

/-- Python `str.strip`. -/
def pyStrip (s : String) : String := String.mk (trimChars s.data)

/-- Python `str.lower` (character-wise). -/
def pyLower (s : String) : String := String.mk (s.data.map Char.toLower)

/-- Python `col.lower().strip()`, the normalization used for column matching. -/
def normName (s : String) : String := pyStrip (pyLower s)

/-- `pd.notna` on a cell (false on NaN and on a stored `None`). -/
def cellNotNull : Cell → Bool
  | Cell.null => false
  | Cell.pyNone => false
  | _ => true

/-- `Series.dropna`. -/
def dropnaCells (cells : List Cell) : List Cell := cells.filter cellNotNull

/-- Python `str(cell)` as used on cells (`astype(str)` / message building):
a float NaN renders as "nan", a stored Python `None` as "None". -/
def cellToStr : Cell → String
  | Cell.str s => s
  | Cell.num n => toString n
  | Cell.null => "nan"
  | Cell.pyNone => "None"
  | Cell.time t => toString t

/-- Accumulate a decimal digit string (none on a non-digit). -/
def digitsValAux : Nat → List Char → Option Nat
  | acc, [] => some acc
  | acc, c :: rest =>
    if c.isDigit then digitsValAux (acc * 10 + (c.toNat - 48)) rest
    else none

/-- `pd.to_numeric` on one non-null cell's text, with an optional sign
(rejection ids are integral, so numeric cells are modeled as integers). -/
def parseNum (s : String) : Option Int :=
  match (pyStrip s).data with
  | [] => none
  | c :: rest =>
    if c = '-' then
      match rest with
      | [] => none
      | _ => (digitsValAux 0 rest).map (fun n => -(n : Int))
    else if c = '+' then
      match rest with
      | [] => none
      | _ => (digitsValAux 0 rest).map (fun n => (n : Int))
    else (digitsValAux 0 (c :: rest)).map (fun n => (n : Int))

/-- Whether `pd.to_numeric(_, errors='raise')` accepts the cell. -/
def cellNumeric : Cell → Bool
  | Cell.str s => (parseNum s).isSome
  | Cell.num _ => true
  | Cell.null => true
  | Cell.pyNone => true
  | Cell.time _ => false

/-- `data_processor.DataProcessor.REQUIRED_COLUMNS`. -/
def REQUIRED_COLUMNS : List String :=
  ["IDRechazo", "Caso", "Responsable de Caso", "Valor homologación"]

/-- `data_processor.DataProcessor.COLUMN_MAPPING`. -/
def COLUMN_MAPPING : List (String × String) :=
  [("IDRechazo", "RECHAZOID"), ("Caso", "CASO"),
   ("Responsable de Caso", "RESPONSABLE_DE_CASO"),
   ("Valor homologación", "VALOR_HOMOLOGACION")]

/-- `DataProcessor._find_column` (first column whose normalized name matches),
returning the whole column. -/
def findColumn (df : DF) (name : String) : Option (String × List Cell) :=
  df.cols.find? (fun c => normName c.1 == normName name)

/-- The required columns that no DataFrame column matches
(`validate_data` lines 57-65). -/
def missingColumns (df : DF) : List String :=
  REQUIRED_COLUMNS.filter
    (fun col => !(df.cols.any (fun c => normName c.1 == normName col)))

/-- `Series.duplicated()` (keep='first') marks: true at each occurrence that
has an earlier equal cell (pandas treats NaN as equal to NaN here). -/
def dupMarks : List Cell → List Cell → List Bool
  | _, [] => []
  | seen, c :: rest => (decide (c ∈ seen)) :: dupMarks (c :: seen) rest

/-- Accumulator form of `Series.unique()`. -/
def firstUniquesAux (acc : List Cell) : List Cell → List Cell
  | [] => acc
  | c :: rest => firstUniquesAux (if c ∈ acc then acc else acc ++ [c]) rest

/-- `Series.unique()`: distinct values in first-occurrence order. -/
def firstUniques (l : List Cell) : List Cell := firstUniquesAux [] l

/-- The duplicate-report error string built at `validate_data` lines 85-89. -/
def dupErrorMsg (count : Nat) (vals : List Cell) (ell : Bool) : String :=
  "Se encontraron " ++ toString count ++
    " IDRechazo duplicados en el archivo. IDs duplicados: " ++
    String.intercalate ", " (vals.map cellToStr) ++
    (if ell then " ..." else "")

/-- `DataProcessor.validate_data` (lines 53-112): returns
`(valid, ordered error list)`, on the inputs where the function returns
normally (no two columns normalizing to one required name;
`validate_data_opt` below adds the exception paths). -/
def validate_data (df : DF) : Bool × List String :=
  let missing := missingColumns df
  if missing.isEmpty then
    let idErrors :=
      match findColumn df "idrechazo" with
      | none => []
      | some idCol =>
        let cells := idCol.2
        let nullIds := (cells.filter (fun c => !cellNotNull c)).length
        let e1 :=
          if nullIds > 0 then
            ["Se encontraron " ++ toString nullIds ++ " registros sin IDRechazo"]
          else []
        let nonNull := dropnaCells cells
        let marks := dupMarks [] nonNull
        let e2 :=
          if marks.any (fun b => b) then
            let dupVals := firstUniques (cells.filter (fun c => cells.count c ≥ 2))
            [dupErrorMsg (marks.count true) (dupVals.take 10)
              (decide (dupVals.length > 10))]
          else []
        let e3 :=
          if nonNull.all cellNumeric then []
          else ["IDRechazo contiene valores no numéricos"]
        e1 ++ e2 ++ e3
    let hasUpdateData :=
      ["caso", "responsable de caso", "valor homologación"].any (fun nm =>
        match findColumn df nm with
        | none => false
        | some c => c.2.any cellNotNull)
    let errors :=
      idErrors ++
        (if hasUpdateData then []
         else ["No hay datos para actualizar (todas las columnas de actualización están vacías)"])
    (errors.isEmpty, errors)
  else
    (false, ["Columnas faltantes: " ++ String.intercalate ", " missing])

/-- How many DataFrame columns match a required name after normalization:
`df_normalized[name]` selects them all, so it is a Series exactly when this
count is 1. -/
def matchCount (df : DF) (name : String) : Nat :=
  (df.cols.filter (fun c => normName c.1 == normName name)).length

/-- `DataProcessor.validate_data` including its exception paths: when two
distinct columns normalize to the same required name, `df_normalized[col]`
is a DataFrame and the boolean tests at lines 78 and 102-106 raise
`ValueError` ("The truth value of a Series is ambiguous"), so the function
returns nothing; `none` models that exception (checked in source order:
id column first, then the three update columns).  On every other input the
result is that of `validate_data`. -/
def validate_data_opt (df : DF) : Option (Bool × List String) :=
  let missing := missingColumns df
  if missing.isEmpty then
    if 2 ≤ matchCount df "idrechazo" then none
    else if 2 ≤ matchCount df "caso" then none
    else if 2 ≤ matchCount df "responsable de caso" then none
    else if 2 ≤ matchCount df "valor homologación" then none
    else some (validate_data df)
  else some (false, ["Columnas faltantes: " ++ String.intercalate ", " missing])

/-- The rename dictionary built at `transform_for_database` lines 117-122:
for each mapping entry, the first DataFrame column matching it. -/
def buildColMapping (names : List String) : List (String × String) :=
  COLUMN_MAPPING.filterMap (fun m =>
    (names.find? (fun n => normName n == normName m.1)).map (fun n => (n, m.2)))

/-- `df.rename(columns=column_mapping)`: every column whose label is in the
dictionary gets the mapped name. -/
def renameCols (df : DF) : DF :=
  let mapping := buildColMapping (df.cols.map (fun c => c.1))
  ⟨df.cols.map (fun c =>
     match mapping.find? (fun p => p.1 == c.1) with
     | some p => (p.2, c.2)
     | none => c)⟩

/-- Frame height (pandas frames are rectangular; first column's length). -/
def dfHeight (df : DF) : Nat := (df.cols.headD ("", [])).2.length

/-- `df[name] = scalar`: overwrite every column labeled `name`, or append a
new one, broadcasting the scalar to the frame height. -/
def setCol (df : DF) (name : String) (c : Cell) : DF :=
  if df.cols.any (fun p => p.1 == name) then
    ⟨df.cols.map (fun p =>
        if p.1 == name then (p.1, List.replicate (dfHeight df) c) else p)⟩
  else
    ⟨df.cols ++ [(name, List.replicate (dfHeight df) c)]⟩

/-- `pd.to_numeric(_, errors='coerce')` on one cell. -/
def coerceCell : Cell → Cell
  | Cell.str s => match parseNum s with | some n => Cell.num n | none => Cell.null
  | Cell.num n => Cell.num n
  | Cell.null => Cell.null
  | Cell.pyNone => Cell.null
  | Cell.time _ => Cell.null

/-- Coerce every column labeled `name` to numeric. -/
def coerceNumericCol (df : DF) (name : String) : DF :=
  ⟨df.cols.map (fun p => if p.1 == name then (p.1, p.2.map coerceCell) else p)⟩

/-- `astype(str).str.strip()` followed by `.replace('nan', None)` on a cell:
stringify, strip, and replace the "nan" placeholder by a stored Python
`None` (which a later `astype(str)` renders as "None", not "nan"). -/
def normStrCell (c : Cell) : Cell :=
  let s := pyStrip (cellToStr c)
  if s == "nan" then Cell.pyNone else Cell.str s

/-- Normalize every column labeled `name` as a string column. -/
def normStringCol (df : DF) (name : String) : DF :=
  ⟨df.cols.map (fun p => if p.1 == name then (p.1, p.2.map normStrCell) else p)⟩

/-- The canonical output column order (`transform_for_database` lines 137-138). -/
def AVAILABLE_COLUMNS : List String :=
  ["RECHAZOID", "CASO", "RESPONSABLE_DE_CASO", "VALOR_HOMOLOGACION",
   "UPDATE_AT", "FECHA_SOLUCION_RECHAZO"]

/-- `df[[c for c in available_columns if c in df.columns]]`. -/
def projectCols (df : DF) : DF :=
  ⟨AVAILABLE_COLUMNS.flatMap (fun a => df.cols.filter (fun p => p.1 == a))⟩

/-- Keep the cells whose mask entry is true (row filtering). -/
def applyMask (mask : List Bool) (cells : List Cell) : List Cell :=
  (mask.zip cells).filterMap (fun p => if p.1 then some p.2 else none)

/-- `df.dropna(subset=[name])`: `none` models the `KeyError` pandas raises
when no column carries the label. -/
def dropnaSubset (df : DF) (name : String) : Option DF :=
  match df.cols.find? (fun p => p.1 == name) with
  | none => none
  | some c =>
    let mask := c.2.map cellNotNull
    some ⟨df.cols.map (fun p => (p.1, applyMask mask p.2))⟩

/-- `DataProcessor.transform_for_database` (lines 114-142), parameterized by
the `datetime.now()` stamp.  Returns `none` where pandas would raise: a
duplicate canonical label (column selection yields a frame, not a series) or
a missing RECHAZOID column at the final `dropna`. -/
def transform_for_database (df : DF) (now : Nat) : Option DF :=
  let df1 := renameCols df
  let df2 := setCol (setCol df1 "UPDATE_AT" (Cell.time now))
               "FECHA_SOLUCION_RECHAZO" (Cell.time now)
  if ["RECHAZOID", "CASO", "RESPONSABLE_DE_CASO", "VALOR_HOMOLOGACION"].any
       (fun n => 2 ≤ (df2.cols.filter (fun p => p.1 == n)).length) then
    none
  else
    let df3 := coerceNumericCol df2 "RECHAZOID"
    let df4 := normStringCol (normStringCol (normStringCol df3 "CASO")
                 "RESPONSABLE_DE_CASO") "VALOR_HOMOLOGACION"
    dropnaSubset (projectCols df4) "RECHAZOID"

/-- Drop the two timestamp columns (for comparison modulo timestamp refresh). -/
def stripTimes (df : DF) : DF :=
  ⟨df.cols.filter
    (fun p => !(p.1 == "UPDATE_AT" || p.1 == "FECHA_SOLUCION_RECHAZO"))⟩

/-- C4: an input missing at least one required column (case-insensitive,
trimmed match) makes `validate_data` return `valid = false` with exactly one
error naming exactly the missing columns, and no other validation rule runs. -/
theorem claim_C4 (df : DF) (h : missingColumns df ≠ []) :
    validate_data df =
      (false, ["Columnas faltantes: " ++
                 String.intercalate ", " (missingColumns df)]) := by
  unfold validate_data
  rw [if_neg]
  simpa [List.isEmpty_iff] using h

theorem claim_C4_witness :
    missingColumns ⟨[("foo", [Cell.num 1])]⟩ ≠ [] ∧
      validate_data ⟨[("foo", [Cell.num 1])]⟩ =
        (false, ["Columnas faltantes: " ++
          String.intercalate ", " (missingColumns ⟨[("foo", [Cell.num 1])]⟩)]) :=
  ⟨by decide, claim_C4 _ (by decide)⟩

/-- Marked duplicates plus newly-seen distinct values balance the length. -/
theorem dupMarks_count_add (l : List Cell) : ∀ (seen acc : List Cell),
    (∀ x, x ∈ seen ↔ x ∈ acc) →
    (dupMarks seen l).count true + (firstUniquesAux acc l).length =
      l.length + acc.length := by
  induction l with
  | nil => intro seen acc _; simp [dupMarks, firstUniquesAux]
  | cons c rest ih =>
    intro seen acc h
    simp only [dupMarks, firstUniquesAux]
    by_cases hc : c ∈ seen
    · have hca : c ∈ acc := (h c).mp hc
      rw [if_pos hca, show decide (c ∈ seen) = true from decide_eq_true hc]
      have hmem : ∀ x, x ∈ c :: seen ↔ x ∈ acc := by
        intro x
        rw [List.mem_cons, h x]
        exact ⟨fun hx => hx.elim (fun he => he ▸ hca) id, Or.inr⟩
      have hrec := ih (c :: seen) acc hmem
      simp only [List.count_cons_self, List.length_cons]
      omega
    · have hca : c ∉ acc := fun hx => hc ((h c).mpr hx)
      rw [if_neg hca, show decide (c ∈ seen) = false from decide_eq_false hc]
      have hmem : ∀ x, x ∈ c :: seen ↔ x ∈ acc ++ [c] := by
        intro x
        rw [List.mem_cons, h x, List.mem_append, List.mem_singleton]
        exact or_comm
      have hrec := ih (c :: seen) (acc ++ [c]) hmem
      rw [List.count_cons_of_ne (by simp)]
      simp only [List.length_cons, List.length_append, List.length_singleton,
        List.length_nil] at hrec ⊢
      omega

/-- No mark is set exactly when the cells are distinct and all unseen. -/
theorem dupMarks_any_false_iff (l : List Cell) : ∀ seen : List Cell,
    ((dupMarks seen l).any (fun b => b) = false) ↔
      (l.Nodup ∧ ∀ x ∈ l, x ∉ seen) := by
  induction l with
  | nil => intro seen; simp [dupMarks]
  | cons c rest ih =>
    intro seen
    simp only [dupMarks, List.any_cons, Bool.or_eq_false_iff, ih (c :: seen),
      List.nodup_cons, List.mem_cons, decide_eq_false_iff_not]
    constructor
    · rintro ⟨hc, hnd, hall⟩
      refine ⟨⟨fun hx => (hall c hx (Or.inl rfl)), hnd⟩, ?_⟩
      rintro x (rfl | hx)
      · exact hc
      · exact fun hs => hall x hx (Or.inr hs)
    · rintro ⟨⟨hcr, hnd⟩, hall⟩
      refine ⟨hall c (Or.inl rfl), hnd, ?_⟩
      rintro x hx (rfl | hs)
      · exact hcr hx
      · exact hall x (Or.inr hx) hs

/-- A repeated cell forces some duplicate mark. -/
theorem dupMarks_any_of_not_nodup (l : List Cell) (h : ¬ l.Nodup) :
    (dupMarks [] l).any (fun b => b) = true := by
  by_contra hfalse
  have hf : (dupMarks [] l).any (fun b => b) = false :=
    Bool.not_eq_true _ ▸ Bool.of_not_eq_true hfalse
  exact h ((dupMarks_any_false_iff l []).mp hf).1

/-- `validate_data` returns normally (with its modeled result) whenever no
required name is matched by two or more columns. -/
theorem validate_data_opt_eq (df : DF)
    (hnc : ∀ n ∈ (["idrechazo", "caso", "responsable de caso",
        "valor homologación"] : List String), matchCount df n ≤ 1) :
    validate_data_opt df = some (validate_data df) := by
  have h1 : ¬ 2 ≤ matchCount df "idrechazo" := by
    have := hnc "idrechazo" (by decide)
    omega
  have h2 : ¬ 2 ≤ matchCount df "caso" := by
    have := hnc "caso" (by decide)
    omega
  have h3 : ¬ 2 ≤ matchCount df "responsable de caso" := by
    have := hnc "responsable de caso" (by decide)
    omega
  have h4 : ¬ 2 ≤ matchCount df "valor homologación" := by
    have := hnc "valor homologación" (by decide)
    omega
  simp only [validate_data_opt]
  by_cases hm : (missingColumns df).isEmpty = true
  · rw [if_pos hm, if_neg h1, if_neg h2, if_neg h3, if_neg h4]
  · rw [if_neg hm]
    simp only [validate_data]
    rw [if_neg hm]

/-- C5 (refutation): the duplicate report is not produced on every table
whose id column holds duplicates.  When a second column also normalizes to
"idrechazo", `df_normalized[id_col]` is a DataFrame and the test at
data_processor.py line 78 raises `ValueError` ("The truth value of a Series
is ambiguous"), so `validate_data` returns nothing instead of the report. -/
theorem claim_C5_counterexample :
    missingColumns ⟨[("IDRechazo", [Cell.num 1, Cell.num 1]),
      ("IDRECHAZO ", [Cell.num 1, Cell.num 1]),
      ("Caso", [Cell.str "x", Cell.null]),
      ("Responsable de Caso", [Cell.null, Cell.null]),
      ("Valor homologación", [Cell.null, Cell.null])]⟩ = [] ∧
    findColumn ⟨[("IDRechazo", [Cell.num 1, Cell.num 1]),
      ("IDRECHAZO ", [Cell.num 1, Cell.num 1]),
      ("Caso", [Cell.str "x", Cell.null]),
      ("Responsable de Caso", [Cell.null, Cell.null]),
      ("Valor homologación", [Cell.null, Cell.null])]⟩ "idrechazo" =
      some ("IDRechazo", [Cell.num 1, Cell.num 1]) ∧
    ¬ (dropnaCells [Cell.num 1, Cell.num 1]).Nodup ∧
    validate_data_opt ⟨[("IDRechazo", [Cell.num 1, Cell.num 1]),
      ("IDRECHAZO ", [Cell.num 1, Cell.num 1]),
      ("Caso", [Cell.str "x", Cell.null]),
      ("Responsable de Caso", [Cell.null, Cell.null]),
      ("Valor homologación", [Cell.null, Cell.null])]⟩ = none := by
  refine ⟨by decide, by decide, by decide, by decide⟩

/-- C5 (amended): when no required name is matched by two or more columns
(so the program raises nothing) and the id column holds duplicate (non-null)
values, `validate_data` returns normally and the report carries the exact
duplicate count (occurrences beyond the first of each value), lists the
first 10 distinct repeated values, and appends the ellipsis marker exactly
when more than 10 distinct repeated values exist. -/
theorem claim_C5_amended (df : DF) (idCol : String × List Cell)
    (hm : missingColumns df = [])
    (hfind : findColumn df "idrechazo" = some idCol)
    (hdup : ¬ (dropnaCells idCol.2).Nodup)
    (hnc : ∀ n ∈ (["idrechazo", "caso", "responsable de caso",
        "valor homologación"] : List String), matchCount df n ≤ 1) :
    validate_data_opt df = some (validate_data df) ∧
    dupErrorMsg
      ((dropnaCells idCol.2).length - (firstUniques (dropnaCells idCol.2)).length)
      ((firstUniques (idCol.2.filter (fun c => idCol.2.count c ≥ 2))).take 10)
      (decide ((firstUniques (idCol.2.filter (fun c => idCol.2.count c ≥ 2))).length > 10))
      ∈ (validate_data df).2 := by
  refine ⟨validate_data_opt_eq df hnc, ?_⟩
  have hany := dupMarks_any_of_not_nodup _ hdup
  have hcount : (dupMarks [] (dropnaCells idCol.2)).count true =
      (dropnaCells idCol.2).length - (firstUniques (dropnaCells idCol.2)).length := by
    have hb := dupMarks_count_add (dropnaCells idCol.2) [] [] (by simp)
    simp only [List.length_nil, Nat.add_zero, firstUniques] at hb ⊢
    omega
  simp only [validate_data, hm, hfind, List.isEmpty_nil, if_pos, hany,
    if_true, hcount]
  simp [List.mem_append]

/-- Concrete instance of the amended C5. -/
theorem claim_C5_amended_witness :
    missingColumns ⟨[("IDRechazo", [Cell.num 1, Cell.num 1, Cell.num 2]),
      ("Caso", [Cell.str "x", Cell.null, Cell.null]),
      ("Responsable de Caso", [Cell.null, Cell.null, Cell.null]),
      ("Valor homologación", [Cell.null, Cell.null, Cell.null])]⟩ = [] ∧
    ¬ (dropnaCells [Cell.num 1, Cell.num 1, Cell.num 2]).Nodup ∧
    (∀ n ∈ (["idrechazo", "caso", "responsable de caso",
        "valor homologación"] : List String),
      matchCount ⟨[("IDRechazo", [Cell.num 1, Cell.num 1, Cell.num 2]),
        ("Caso", [Cell.str "x", Cell.null, Cell.null]),
        ("Responsable de Caso", [Cell.null, Cell.null, Cell.null]),
        ("Valor homologación", [Cell.null, Cell.null, Cell.null])]⟩ n ≤ 1) ∧
    (validate_data_opt ⟨[("IDRechazo", [Cell.num 1, Cell.num 1, Cell.num 2]),
        ("Caso", [Cell.str "x", Cell.null, Cell.null]),
        ("Responsable de Caso", [Cell.null, Cell.null, Cell.null]),
        ("Valor homologación", [Cell.null, Cell.null, Cell.null])]⟩ =
      some (validate_data ⟨[("IDRechazo",
          [Cell.num 1, Cell.num 1, Cell.num 2]),
        ("Caso", [Cell.str "x", Cell.null, Cell.null]),
        ("Responsable de Caso", [Cell.null, Cell.null, Cell.null]),
        ("Valor homologación", [Cell.null, Cell.null, Cell.null])]⟩) ∧
     dupErrorMsg 1 [Cell.num 1] false ∈
      (validate_data ⟨[("IDRechazo", [Cell.num 1, Cell.num 1, Cell.num 2]),
        ("Caso", [Cell.str "x", Cell.null, Cell.null]),
        ("Responsable de Caso", [Cell.null, Cell.null, Cell.null]),
        ("Valor homologación", [Cell.null, Cell.null, Cell.null])]⟩).2) :=
  ⟨by decide, by decide, by decide,
    by exact claim_C5_amended _
        ("IDRechazo", [Cell.num 1, Cell.num 1, Cell.num 2])
        (by decide) (by decide) (by decide) (by decide)⟩

/-! ### The relational store (`database_manager.py`) -/

/-- A row of `RECHAZOS_SEGUIMIENTO` (the columns the workflow touches).
Nullable text columns are `Option String`; quoting/escaping round-trips
through the SQL layer, so stored values are modeled directly. -/
structure RejectionRecord where
  rechazoid : Int
  caso : Option String
  responsable : Option String
  valorHomologacion : Option String
  campoRechazado : Option String
  valorRechazado : Option String
  paisid : Int
  codigoBarras : Option String
  grpid : Int
  modulo : Option String
  motivoRechazo : Option String
  semanas : Option Int
  updateAt : String
  fechaSolucion : String
deriving DecidableEq, Repr

/-- One canonical update row handed to `update_rechazos`.  `rechazoid` is the
result of `int(row['RECHAZOID'])`; `none` models that conversion raising.
`rechazoidRaw` is the raw display form used in error messages
(`row.get('RECHAZOID', 'N/A')`).  The timestamps are already formatted. -/
structure UpdateRow where
  rechazoidRaw : String
  rechazoid : Option Int
  caso : Option String
  responsable : Option String
  valorHomologacion : Option String
  updateAt : String
  fechaSolucion : String
deriving DecidableEq, Repr

/-- The summary dict built by `update_rechazos` (lines 24-30). -/
structure UpdateResults where
  total : Nat
  updated : Nat
  failed : Nat
  errors : List String
  updated_ids : List Int
deriving DecidableEq, Repr

/-- Python `str(value)` on a value read back from a nullable column:
a SQL NULL arrives as `None` and prints as "None". -/
def pyStrOpt : Option String → String
  | some s => s
  | none => "None"

/-- `str(x) if pd.notna(x) else ''`. -/
def strOrEmpty : Option String → String
  | some s => s
  | none => ""

/-- The per-row UPDATE (lines 46-69): on each record with the matching id,
set the two timestamps and exactly those of CASO / RESPONSABLE_DE_CASO /
VALOR_HOMOLOGACION that are non-null in the row. -/
def applyRowUpdate (row : UpdateRow) (rid : Int) (r : RejectionRecord) :
    RejectionRecord :=
  if r.rechazoid = rid then
    { r with
      updateAt := row.updateAt
      fechaSolucion := row.fechaSolucion
      caso := if row.caso.isSome then row.caso else r.caso
      responsable := if row.responsable.isSome then row.responsable else r.responsable
      valorHomologacion :=
        if row.valorHomologacion.isSome then row.valorHomologacion
        else r.valorHomologacion }
  else r

/-- The sibling filter of the shared-EAN UPDATE and SELECT
(lines 93-101, 109-117): a different record with the same country and
barcode, rejected field PROPSTID, in a group flagged COMPARTE_EAN. -/
def isSibling (groups : List Int) (rid paisid : Int) (codigoBarras : String)
    (r : RejectionRecord) : Bool :=
  r.rechazoid != rid && r.paisid == paisid &&
    r.codigoBarras == some codigoBarras &&
    r.campoRechazado == some "PROPSTID" &&
    groups.contains r.grpid

/-- The shared-EAN UPDATE's SET clause (lines 90-92). -/
def applyShared (v updateAt fechaSolucion : String) (r : RejectionRecord) :
    RejectionRecord :=
  { r with
      valorHomologacion := some v
      updateAt := updateAt
      fechaSolucion := fechaSolucion }

/-- Record propagated sibling ids, skipping ids already present
(lines 121-125). -/
def addSharedIds (res : UpdateResults) : List Int → UpdateResults
  | [] => res
  | i :: rest =>
    if i ∈ res.updated_ids then addSharedIds res rest
    else addSharedIds
      { res with
          updated_ids := res.updated_ids ++ [i]
          updated := res.updated + 1 } rest

/-- The per-row failure message (line 129); the exception text is abstracted. -/
def rowErrorMsg (idx : Nat) (row : UpdateRow) : String :=
  "Registro " ++ toString (idx + 1) ++ " (ID: " ++ row.rechazoidRaw ++
    "): invalid literal for RECHAZOID"

/-- One iteration of the `update_rechazos` row loop (lines 34-131). -/
def processRow (groups : List Int) (st : List RejectionRecord × UpdateResults)
    (idxRow : Nat × UpdateRow) : List RejectionRecord × UpdateResults :=
  let store := st.1
  let res := st.2
  let idx := idxRow.1
  let row := idxRow.2
  match row.rechazoid with
  | none =>
    (store, { res with
                failed := res.failed + 1
                errors := res.errors ++ [rowErrorMsg idx row] })
  | some rid =>
    let store1 := store.map (applyRowUpdate row rid)
    let res1 := { res with
                    updated := res.updated + 1
                    updated_ids := res.updated_ids ++ [rid] }
    match row.valorHomologacion with
    | none => (store1, res1)
    | some v =>
      match store1.find? (fun r => r.rechazoid == rid) with
      | none => (store1, res1)
      | some info =>
        if info.campoRechazado == some "PROPSTID" then
          let cb := pyStrOpt info.codigoBarras
          let store2 := store1.map (fun r =>
            if isSibling groups rid info.paisid cb r then
              applyShared v row.updateAt row.fechaSolucion r
            else r)
          let sharedIds := (store2.filter
            (isSibling groups rid info.paisid cb)).map (fun r => r.rechazoid)
          (store2, addSharedIds res1 sharedIds)
        else (store1, res1)

/-- The enumerated row loop (`for idx, row in df.iterrows()`). -/
def processRows (groups : List Int) :
    List RejectionRecord × UpdateResults → Nat → List UpdateRow →
      List RejectionRecord × UpdateResults
  | st, _, [] => st
  | st, idx, row :: rest =>
    processRows groups (processRow groups st (idx, row)) (idx + 1) rest

/-- `DatabaseManager.update_rechazos` (lines 23-132): run the row loop over
the enumerated input, returning the final store and the result summary.
`groups` is the set of GRPIDs flagged COMPARTE_EAN in CF_CLIENTES_SO. -/
def update_rechazos (groups : List Int) (store : List RejectionRecord)
    (rows : List UpdateRow) : List RejectionRecord × UpdateResults :=
  processRows groups
    (store, { total := rows.length, updated := 0, failed := 0
              errors := [], updated_ids := [] }) 0 rows

/-! ### Homologation derivers -/

/-- The summary dict shared by both derivers (lines 135-143, 301-309),
parameterized by the entity-specific detail shape. -/
structure DerivResults (δ : Type) where
  total : Nat
  inserted : Nat
  duplicated : Nat
  failed : Nat
  errors : List String
  duplicates : List δ
  inserted_details : List δ
deriving DecidableEq, Repr

/-- The initial (all-zero, all-empty) deriver summary. -/
def emptyDeriv {δ : Type} : DerivResults δ :=
  ⟨0, 0, 0, 0, [], [], []⟩

/-- A row of `PRO_SO_HOMOLOGACION` as inserted at lines 252-278. -/
structure ProdHom where
  paisid : Int
  cod_prod : String
  descripcion_producto : String
  grpid : Int
  propstid : String
  propstcodbarras : Option String
  activo : Bool
  create_at : String
  update_at : String
  fecha_valido_desde : Option String
  fecha_valido_hasta : String
deriving DecidableEq, Repr

/-- The detail dict recorded for product duplicates and inserts
(lines 218-224, 282-288). -/
structure ProdDetail where
  rechazoid : Int
  paisid : Int
  cod_prod : String
  grpid : Int
  propstid : String
deriving DecidableEq, Repr

/-- Environment of the product deriver: the rejection store, the existing
homologation table, the description view (PROPSTID → nullable PROPSTNOMBRE),
the week calendar (SEMANIO, SEMNUMERO, SEMINICIO), and the current-time
stamp. -/
structure ProdEnv where
  store : List RejectionRecord
  proTable : List ProdHom
  descTable : List (String × Option String)
  catSemanas : List (Int × Int × String)
  now : String
deriving Repr

/-- The selection query of the product deriver (lines 151-166). -/
def selectRechazosProd (store : List RejectionRecord) (ids : List Int) :
    List RejectionRecord :=
  store.filter (fun r =>
    ids.contains r.rechazoid &&
    r.responsable == some "Gobierno de Datos" &&
    r.modulo == some "Sellout" &&
    r.campoRechazado == some "PROPSTID" &&
    r.motivoRechazo == some "Producto no encontrado en tabla de homologación")

/-- Description resolution (lines 174-191): `dict(zip(...))` keeps the last
occurrence per key; a missing key or a null name falls back to the
placeholder via `fillna`. -/
def descLookup (descTable : List (String × Option String))
    (propstid : Option String) : String :=
  match propstid with
  | none => "Producto homologado"
  | some s =>
    match descTable.reverse.find? (fun e => e.1 == s) with
    | some e => match e.2 with
      | some nm => nm
      | none => "Producto homologado"
    | none => "Producto homologado"

/-- FECHA_VALIDO_DESDE resolution (lines 227-247): split the week code with
Python floor division, look up the calendar, take the first row.  The empty
string is collapsed to NULL by the Python truthiness test at line 275. -/
def fechaValidoDesde (catSemanas : List (Int × Int × String))
    (semanas : Option Int) : Option String :=
  match semanas with
  | none => none
  | some s =>
    match catSemanas.find? (fun e =>
        e.1 == Int.ediv s 100 && e.2.1 == Int.emod s 100) with
    | some e => if e.2.2 = "" then none else some e.2.2
    | none => none

/-- The duplicate-check COUNT(*) of lines 205-214: rows of the product
homologation table with the given country, product code and group. -/
def prodKeyCount (tbl : List ProdHom) (p : Int) (cod : String) (g : Int) :
    Nat :=
  (tbl.filter (fun h => h.paisid == p && h.cod_prod == cod && h.grpid == g)).length

/-- The detail dict recorded for the record (duplicates and inserts share
this shape). -/
def prodDetailOf (r : RejectionRecord) : ProdDetail :=
  ⟨r.rechazoid, r.paisid, strOrEmpty r.valorRechazado, r.grpid,
    strOrEmpty r.valorHomologacion⟩

/-- The PRO_SO_HOMOLOGACION row built for a record (lines 227-278). -/
def prodNewRow (env : ProdEnv) (r : RejectionRecord) : ProdHom :=
  { paisid := r.paisid, cod_prod := strOrEmpty r.valorRechazado
    descripcion_producto := descLookup env.descTable r.valorHomologacion
    grpid := r.grpid, propstid := strOrEmpty r.valorHomologacion
    propstcodbarras := r.codigoBarras, activo := true
    create_at := env.now, update_at := env.now
    fecha_valido_desde := fechaValidoDesde env.catSemanas r.semanas
    fecha_valido_hasta := "2999-12-31 00:00:00" }

/-- One iteration of the product-deriver loop (lines 193-293) over the state
(homologation table, summary, count of store operations issued). -/
def prodStep (env : ProdEnv) (st : List ProdHom × DerivResults ProdDetail × Nat)
    (r : RejectionRecord) : List ProdHom × DerivResults ProdDetail × Nat :=
  let tbl := st.1
  let res := st.2.1
  let ops := st.2.2
  let cod := strOrEmpty r.valorRechazado
  let detail : ProdDetail := prodDetailOf r
  let dupCount := prodKeyCount tbl r.paisid cod r.grpid
  if 0 < dupCount then
    (tbl, { res with
              duplicated := res.duplicated + 1
              duplicates := res.duplicates ++ [detail] }, ops + 1)
  else
    let opsq : Nat :=
      match r.semanas with
      | none => ops + 1
      | some _ => ops + 2
    (tbl ++ [prodNewRow env r],
      { res with
          inserted := res.inserted + 1
          inserted_details := res.inserted_details ++ [detail] },
      opsq + 1)

/-- The product-deriver record loop. -/
def prodLoop (env : ProdEnv) :
    List ProdHom × DerivResults ProdDetail × Nat → List RejectionRecord →
      List ProdHom × DerivResults ProdDetail × Nat
  | st, [] => st
  | st, r :: rest => prodLoop env (prodStep env st r) rest

/-- `DatabaseManager.insert_homologaciones_from_rechazos` (lines 134-298).
`setupExc` models an exception raised by the setup-phase query, caught by the
outer handler at lines 295-296.  Returns the homologation table, the summary
and the number of store operations issued. -/
def insert_homologaciones_from_rechazos (env : ProdEnv)
    (setupExc : Option String) (rechazos_ids : List Int) :
    List ProdHom × DerivResults ProdDetail × Nat :=
  if rechazos_ids.isEmpty then (env.proTable, emptyDeriv, 0)
  else
    match setupExc with
    | some e =>
      (env.proTable, { emptyDeriv with errors := ["Error general: " ++ e] }, 0)
    | none =>
      let selected := selectRechazosProd env.store rechazos_ids
      let setupOps :=
        1 + (if selected.any (fun r => r.valorHomologacion.isSome) then 1 else 0)
      if selected.length = 0 then
        (env.proTable, { emptyDeriv with total := 0 }, setupOps)
      else
        prodLoop env
          (env.proTable, { emptyDeriv with total := selected.length }, setupOps)
          selected

/-- A row of `SUC_SO_HOMOLOGACION` as inserted at lines 415-443. -/
structure SucHom where
  paisid : Int
  grpid : Int
  cadid : Int
  num_sucursal : String
  descripcion : Option String
  direccion : Option String
  sucid : String
  activo : Bool
  create_at : String
  update_at : String
  fecha_valido_desde : Option String
  fecha_valido_hasta : String
deriving DecidableEq, Repr

/-- The detail dict recorded for branch duplicates and inserts
(lines 381-387, 447-453). -/
structure SucDetail where
  rechazoid : Int
  paisid : Int
  num_sucursal : String
  grpid : Int
  sucid : String
deriving DecidableEq, Repr

/-- A row of `VW_ESTRUCTURASUCURSALES` (lines 348-353). -/
structure SucMeta where
  sucid : String
  grpid : Int
  cadid : Int
  sucnombre : Option String
  dircalle : Option String
deriving DecidableEq, Repr

/-- Environment of the branch deriver. -/
structure SucEnv where
  store : List RejectionRecord
  sucTable : List SucHom
  sucView : List SucMeta
  catSemanas : List (Int × Int × String)
  now : String
deriving Repr

/-- The selection query of the branch deriver (lines 317-332). -/
def selectRechazosSuc (store : List RejectionRecord) (ids : List Int) :
    List RejectionRecord :=
  store.filter (fun r =>
    ids.contains r.rechazoid &&
    r.responsable == some "Gobierno de Datos" &&
    r.modulo == some "Sellout" &&
    r.campoRechazado == some "SUCID" &&
    r.motivoRechazo == some "Sucursal no encontrada en tabla de homologación" &&
    r.caso == some "Homologacion Sucursal" &&
    r.valorHomologacion.isSome)

/-- The unresolved-branch failure message (line 359). -/
def sucNotFoundMsg (rechazoid : Int) (sucid : String) : String :=
  "RECHAZOID " ++ toString rechazoid ++
    ": No se encontró información para SUCID=\x27" ++ sucid ++ "\x27"

/-- Python truthiness on an optional string: the empty string becomes NULL
(lines 434-435). -/
def nonEmptyOpt : Option String → Option String
  | some s => if s = "" then none else some s
  | none => none

/-- The duplicate-check COUNT(*) of lines 368-377: rows of the branch
homologation table with the given country, branch number and group. -/
def sucKeyCount (tbl : List SucHom) (p : Int) (num : String) (g : Int) :
    Nat :=
  (tbl.filter (fun h =>
    h.paisid == p && h.num_sucursal == num && h.grpid == g)).length

/-- The detail dict recorded for a branch record. -/
def sucDetailOf (r : RejectionRecord) (meta : SucMeta) : SucDetail :=
  ⟨r.rechazoid, r.paisid, strOrEmpty r.valorRechazado, meta.grpid,
    strOrEmpty r.valorHomologacion⟩

/-- The SUC_SO_HOMOLOGACION row built for a record (lines 390-443). -/
def sucNewRow (env : SucEnv) (r : RejectionRecord) (meta : SucMeta) : SucHom :=
  { paisid := r.paisid, grpid := meta.grpid, cadid := meta.cadid
    num_sucursal := strOrEmpty r.valorRechazado
    descripcion := nonEmptyOpt meta.sucnombre
    direccion := nonEmptyOpt meta.dircalle
    sucid := strOrEmpty r.valorHomologacion, activo := true
    create_at := env.now, update_at := env.now
    fecha_valido_desde := fechaValidoDesde env.catSemanas r.semanas
    fecha_valido_hasta := "2999-12-31 00:00:00" }

/-- One iteration of the branch-deriver loop (lines 340-458). -/
def sucStep (env : SucEnv) (st : List SucHom × DerivResults SucDetail × Nat)
    (r : RejectionRecord) : List SucHom × DerivResults SucDetail × Nat :=
  let tbl := st.1
  let res := st.2.1
  let ops := st.2.2
  let sucid := strOrEmpty r.valorHomologacion
  let num := strOrEmpty r.valorRechazado
  match env.sucView.find? (fun m => m.sucid == sucid) with
  | none =>
    (tbl, { res with
              failed := res.failed + 1
              errors := res.errors ++ [sucNotFoundMsg r.rechazoid sucid] },
      ops + 1)
  | some meta =>
    let dupCount := sucKeyCount tbl r.paisid num meta.grpid
    if 0 < dupCount then
      (tbl, { res with
                duplicated := res.duplicated + 1
                duplicates := res.duplicates ++ [sucDetailOf r meta] },
        ops + 2)
    else
      let opsq : Nat :=
        match r.semanas with
        | none => ops + 2
        | some _ => ops + 3
      (tbl ++ [sucNewRow env r meta],
        { res with
            inserted := res.inserted + 1
            inserted_details := res.inserted_details ++ [sucDetailOf r meta] },
        opsq + 1)

/-- The branch-deriver record loop. -/
def sucLoop (env : SucEnv) :
    List SucHom × DerivResults SucDetail × Nat → List RejectionRecord →
      List SucHom × DerivResults SucDetail × Nat
  | st, [] => st
  | st, r :: rest => sucLoop env (sucStep env st r) rest

/-- `DatabaseManager.insert_homologaciones_sucursales_from_rechazos`
(lines 300-463), in the same shape as the product deriver. -/
def insert_homologaciones_sucursales_from_rechazos (env : SucEnv)
    (setupExc : Option String) (rechazos_ids : List Int) :
    List SucHom × DerivResults SucDetail × Nat :=
  if rechazos_ids.isEmpty then (env.sucTable, emptyDeriv, 0)
  else
    match setupExc with
    | some e =>
      (env.sucTable, { emptyDeriv with errors := ["Error general: " ++ e] }, 0)
    | none =>
      let selected := selectRechazosSuc env.store rechazos_ids
      if selected.length = 0 then
        (env.sucTable, { emptyDeriv with total := 0 }, 1)
      else
        sucLoop env
          (env.sucTable, { emptyDeriv with total := selected.length }, 1)
          selected

/-! ### Claims about the derivers and the update engine -/

/-- C10: on the empty rejection-id list, both derivers return the summary
with all counters zero and all lists empty, leave their homologation tables
unchanged, and issue no store operation. -/
theorem claim_C10 (penv : ProdEnv) (senv : SucEnv) (e1 e2 : Option String) :
    insert_homologaciones_from_rechazos penv e1 [] =
      (penv.proTable, emptyDeriv, 0) ∧
    insert_homologaciones_sucursales_from_rechazos senv e2 [] =
      (senv.sucTable, emptyDeriv, 0) :=
  ⟨rfl, rfl⟩

/-- C6: for a row targeting record `r` (matching id), the built update sets
the two timestamps and exactly those of CASO / RESPONSABLE_DE_CASO /
VALOR_HOMOLOGACION that are non-null in the row; a null or absent field, and
every other column, keeps the value of `r` (partial update, not overwrite).
`applyRowUpdate` is the update `update_rechazos` applies to each matching
record. -/
theorem claim_C6 (row : UpdateRow) (rid : Int) (r : RejectionRecord)
    (h : r.rechazoid = rid) :
    applyRowUpdate row rid r =
      { r with
          updateAt := row.updateAt
          fechaSolucion := row.fechaSolucion
          caso := if row.caso.isSome then row.caso else r.caso
          responsable :=
            if row.responsable.isSome then row.responsable else r.responsable
          valorHomologacion :=
            if row.valorHomologacion.isSome then row.valorHomologacion
            else r.valorHomologacion } := by
  simp [applyRowUpdate, h]

theorem claim_C6_witness :
    (⟨7, none, some "R0", none, some "PROPSTID", some "X1", 1, some "B", 2,
       some "Sellout", none, none, "u0", "f0"⟩ :
        RejectionRecord).rechazoid = 7 ∧
    applyRowUpdate ⟨"7", some 7, some "C", none, none, "U", "F"⟩ 7
      ⟨7, none, some "R0", none, some "PROPSTID", some "X1", 1, some "B", 2,
       some "Sellout", none, none, "u0", "f0"⟩ =
    ⟨7, some "C", some "R0", none, some "PROPSTID", some "X1", 1, some "B", 2,
     some "Sellout", none, none, "U", "F"⟩ :=
  by
  refine ⟨rfl, ?_⟩
  exact claim_C6 ⟨"7", some 7, some "C", none, none, "U", "F"⟩ 7
    ⟨7, none, some "R0", none, some "PROPSTID", some "X1", 1, some "B", 2,
     some "Sellout", none, none, "u0", "f0"⟩ rfl

/-! ### Helper lemmas for the update engine -/

/-- The record fields the sibling filter inspects (all preserved by the
updates the engine issues). -/
def sibKey (r : RejectionRecord) :
    Int × Int × Option String × Option String × Int :=
  (r.rechazoid, r.paisid, r.codigoBarras, r.campoRechazado, r.grpid)

theorem sibKey_applyRowUpdate (row : UpdateRow) (rid : Int)
    (r : RejectionRecord) : sibKey (applyRowUpdate row rid r) = sibKey r := by
  unfold applyRowUpdate
  split <;> rfl

theorem sibKey_applyShared (v a b : String) (r : RejectionRecord) :
    sibKey (applyShared v a b r) = sibKey r := rfl

theorem isSibling_eq_of_sibKey (groups : List Int) (rid p : Int) (cb : String)
    {r r' : RejectionRecord} (h : sibKey r = sibKey r') :
    isSibling groups rid p cb r = isSibling groups rid p cb r' := by
  simp only [sibKey, Prod.mk.injEq] at h
  obtain ⟨h1, h2, h3, h4, h5⟩ := h
  simp [isSibling, h1, h2, h3, h4, h5]

theorem map_sibKey_of_preserve {f : RejectionRecord → RejectionRecord}
    (hf : ∀ r, sibKey (f r) = sibKey r) (l : List RejectionRecord) :
    (l.map f).map sibKey = l.map sibKey := by
  induction l with
  | nil => rfl
  | cons a t ih => simp only [List.map_cons, hf, ih]

/-- One row step leaves the sibling-relevant columns of the store intact. -/
theorem processRow_sibKeys (groups : List Int)
    (st : List RejectionRecord × UpdateResults) (p : Nat × UpdateRow) :
    (processRow groups st p).1.map sibKey = st.1.map sibKey := by
  simp only [processRow]
  split
  · rfl
  · split
    · exact map_sibKey_of_preserve (sibKey_applyRowUpdate _ _) _
    · split
      · exact map_sibKey_of_preserve (sibKey_applyRowUpdate _ _) _
      · split
        · rw [map_sibKey_of_preserve, map_sibKey_of_preserve (sibKey_applyRowUpdate _ _)]
          intro r
          split
          · exact sibKey_applyShared _ _ _ _
          · rfl
        · exact map_sibKey_of_preserve (sibKey_applyRowUpdate _ _) _

/-- Every record of the post-step store matches a pre-step record on the
sibling-relevant columns. -/
theorem processRow_store_mem (groups : List Int)
    (st : List RejectionRecord × UpdateResults) (p : Nat × UpdateRow) :
    ∀ r' ∈ (processRow groups st p).1, ∃ r ∈ st.1, sibKey r' = sibKey r := by
  intro r' hr'
  have hk : sibKey r' ∈ (processRow groups st p).1.map sibKey :=
    List.mem_map_of_mem _ hr'
  rw [processRow_sibKeys] at hk
  obtain ⟨r, hr, hkey⟩ := List.mem_map.mp hk
  exact ⟨r, hr, hkey.symm⟩

theorem addSharedIds_frame (l : List Int) : ∀ res : UpdateResults,
    (addSharedIds res l).failed = res.failed ∧
    (addSharedIds res l).errors = res.errors ∧
    (addSharedIds res l).total = res.total := by
  induction l with
  | nil => exact fun res => ⟨rfl, rfl, rfl⟩
  | cons i rest ih =>
    intro res
    unfold addSharedIds
    split
    · exact ih res
    · exact ih _

theorem addSharedIds_mem_sub (l : List Int) : ∀ (res : UpdateResults)
    (j : Int), j ∈ (addSharedIds res l).updated_ids →
      j ∈ res.updated_ids ∨ j ∈ l := by
  induction l with
  | nil => exact fun res j h => Or.inl h
  | cons i rest ih =>
    intro res j h
    unfold addSharedIds at h
    split at h
    · rcases ih res j h with h' | h'
      · exact Or.inl h'
      · exact Or.inr (List.mem_cons_of_mem _ h')
    · rcases ih _ j h with h' | h'
      · rcases List.mem_append.mp h' with h'' | h''
        · exact Or.inl h''
        · exact Or.inr (List.mem_cons.mpr (Or.inl (List.mem_singleton.mp h'')))
      · exact Or.inr (List.mem_cons_of_mem _ h')

theorem addSharedIds_mem_super (l : List Int) : ∀ (res : UpdateResults)
    (j : Int), j ∈ res.updated_ids → j ∈ (addSharedIds res l).updated_ids := by
  induction l with
  | nil => exact fun res j h => h
  | cons i rest ih =>
    intro res j h
    unfold addSharedIds
    split
    · exact ih res j h
    · exact ih _ j (List.mem_append.mpr (Or.inl h))

theorem addSharedIds_mem_of_mem (l : List Int) : ∀ (res : UpdateResults)
    (j : Int), j ∈ l → j ∈ (addSharedIds res l).updated_ids := by
  induction l with
  | nil => intro res j h; cases h
  | cons i rest ih =>
    intro res j h
    unfold addSharedIds
    rcases List.mem_cons.mp h with rfl | h'
    · split
      · exact addSharedIds_mem_super rest res j (by assumption)
      · exact addSharedIds_mem_super rest _ j
          (List.mem_append.mpr (Or.inr (List.mem_singleton.mpr rfl)))
    · split
      · exact ih res j h'
      · exact ih _ j h'

theorem addSharedIds_nodup (l : List Int) : ∀ res : UpdateResults,
    res.updated_ids.Nodup → (addSharedIds res l).updated_ids.Nodup := by
  induction l with
  | nil => exact fun res h => h
  | cons i rest ih =>
    intro res h
    unfold addSharedIds
    split
    · exact ih res h
    · refine ih _ ?_
      simp only [List.nodup_append, List.nodup_singleton, List.disjoint_singleton]
      exact ⟨h, trivial, by assumption⟩

theorem addSharedIds_count_le (l : List Int) : ∀ (res : UpdateResults)
    (j : Int), (addSharedIds res l).updated_ids.count j ≤
      max (res.updated_ids.count j) 1 := by
  induction l with
  | nil =>
    intro res j
    exact le_max_of_le_left (le_refl _)
  | cons i rest ih =>
    intro res j
    unfold addSharedIds
    split
    · exact ih res j
    · refine le_trans (ih _ j) ?_
      simp only [List.count_append]
      rcases eq_or_ne i j with rfl | hne
      · have : res.updated_ids.count i = 0 :=
          List.count_eq_zero.mpr (by assumption)
        simp [this, List.count_singleton]
      · simp [List.count_singleton, hne]

/-- The successfully converted ids of the input rows, in order. -/
def rowIds (rows : List UpdateRow) : List Int :=
  rows.filterMap (fun row => row.rechazoid)

/-- Any id in the post-step list was already present, is the row's own id,
or is the id of a store record in a code-sharing group. -/
theorem processRow_ids_sub (groups : List Int)
    (st : List RejectionRecord × UpdateResults) (p : Nat × UpdateRow) :
    ∀ j ∈ (processRow groups st p).2.updated_ids,
      j ∈ st.2.updated_ids ∨ p.2.rechazoid = some j ∨
        ∃ r ∈ st.1, r.rechazoid = j ∧ r.grpid ∈ groups := by
  intro j hj
  rcases hrid : p.2.rechazoid with _ | rid
  · simp only [processRow, hrid] at hj
    exact Or.inl hj
  · rcases hv : p.2.valorHomologacion with _ | v
    · simp only [processRow, hrid, hv] at hj
      rcases List.mem_append.mp hj with h | h
      · exact Or.inl h
      · exact Or.inr (Or.inl (by rw [List.mem_singleton.mp h]))
    · rcases hfind : (st.1.map (applyRowUpdate p.2 rid)).find?
          (fun r => r.rechazoid == rid) with _ | info
      · simp only [processRow, hrid, hv, hfind] at hj
        rcases List.mem_append.mp hj with h | h
        · exact Or.inl h
        · exact Or.inr (Or.inl (by rw [List.mem_singleton.mp h]))
      · by_cases hcampo : (info.campoRechazado == some "PROPSTID") = true
        · simp only [processRow, hrid, hv, hfind, hcampo, if_true] at hj
          rcases addSharedIds_mem_sub _ _ _ hj with h | h
          · rcases List.mem_append.mp h with h' | h'
            · exact Or.inl h'
            · exact Or.inr (Or.inl (by rw [List.mem_singleton.mp h']))
          · obtain ⟨r2, hr2mem, hr2id⟩ := List.mem_map.mp h
            have hsib := (List.mem_filter.mp hr2mem).2
            have hr2mem' := (List.mem_filter.mp hr2mem).1
            obtain ⟨r1, hr1mem, hr1eq⟩ := List.mem_map.mp hr2mem'
            obtain ⟨r0, hr0mem, hr0eq⟩ := List.mem_map.mp hr1mem
            have hkey : sibKey r2 = sibKey r0 := by
              rw [← hr1eq, ← hr0eq]
              by_cases hs : isSibling groups rid info.paisid
                  (pyStrOpt info.codigoBarras) (applyRowUpdate p.2 rid r0) = true
              · rw [if_pos hs, sibKey_applyShared, sibKey_applyRowUpdate]
              · rw [if_neg hs, sibKey_applyRowUpdate]
            have hgr : groups.contains r2.grpid = true := by
              simp only [isSibling, Bool.and_eq_true] at hsib
              exact hsib.2
            refine Or.inr (Or.inr ⟨r0, hr0mem, ?_, ?_⟩)
            · have h1 : r2.rechazoid = r0.rechazoid := congrArg Prod.fst hkey
              rw [← h1]
              exact hr2id
            · have h5 : r2.grpid = r0.grpid :=
                congrArg (fun q => q.2.2.2.2) hkey
              rw [← h5]
              simpa using hgr
        · simp only [processRow, hrid, hv, hfind] at hj
          rw [if_neg hcampo] at hj
          rcases List.mem_append.mp hj with h | h
          · exact Or.inl h
          · exact Or.inr (Or.inl (by rw [List.mem_singleton.mp h]))

/-- One row step keeps `updated_ids` duplicate-free provided the row's own id
is not yet present (propagation appends are membership-guarded). -/
theorem processRow_ids_nodup (groups : List Int)
    (st : List RejectionRecord × UpdateResults) (p : Nat × UpdateRow)
    (h1 : st.2.updated_ids.Nodup)
    (h2 : ∀ j, p.2.rechazoid = some j → j ∉ st.2.updated_ids) :
    (processRow groups st p).2.updated_ids.Nodup := by
  rcases hrid : p.2.rechazoid with _ | rid
  · simp only [processRow, hrid]
    exact h1
  · have hnotin : rid ∉ st.2.updated_ids := h2 rid hrid
    have hap : (st.2.updated_ids ++ [rid]).Nodup := by
      simp only [List.nodup_append, List.nodup_singleton, List.disjoint_singleton]
      exact ⟨h1, trivial, hnotin⟩
    rcases hv : p.2.valorHomologacion with _ | v
    · simp only [processRow, hrid, hv]
      exact hap
    · rcases hfind : (st.1.map (applyRowUpdate p.2 rid)).find?
          (fun r => r.rechazoid == rid) with _ | info
      · simp only [processRow, hrid, hv, hfind]
        exact hap
      · by_cases hcampo : (info.campoRechazado == some "PROPSTID") = true
        · simp only [processRow, hrid, hv, hfind, hcampo, if_true]
          exact addSharedIds_nodup _ _ hap
        · simp only [processRow, hrid, hv, hfind]
          rw [if_neg hcampo]
          exact hap

/-- The row loop keeps `updated_ids` duplicate-free whenever every upcoming
row id is fresh: not repeated among the rows, not already recorded, and not
the id of a store record in a code-sharing group. -/
theorem processRows_nodup (groups : List Int) :
    ∀ (rows : List UpdateRow) (store : List RejectionRecord)
      (res : UpdateResults) (idx : Nat),
      (rowIds rows).Nodup →
      (∀ i ∈ rowIds rows, ∀ r ∈ store, r.rechazoid = i → r.grpid ∉ groups) →
      res.updated_ids.Nodup →
      (∀ i ∈ rowIds rows, i ∉ res.updated_ids) →
      ((processRows groups (store, res) idx rows).2.updated_ids).Nodup := by
  intro rows
  induction rows with
  | nil =>
    intro store res idx _ _ h3 _
    exact h3
  | cons row rest ih =>
    intro store res idx h1 h2 h3 h4
    have hmemIds : ∀ i, row.rechazoid = some i → i ∈ rowIds (row :: rest) := by
      intro i hi
      simp [rowIds, List.filterMap_cons, hi]
    have hsubIds : ∀ i ∈ rowIds rest, i ∈ rowIds (row :: rest) := by
      intro i hi
      simp only [rowIds, List.filterMap_cons]
      rcases row.rechazoid with _ | j
      · exact hi
      · exact List.mem_cons_of_mem _ hi
    have h1' : (rowIds rest).Nodup := by
      rcases hr : row.rechazoid with _ | j
      · simpa [rowIds, List.filterMap_cons, hr] using h1
      · have hco : rowIds (row :: rest) = j :: rowIds rest := by
          simp [rowIds, List.filterMap_cons, hr]
        rw [hco] at h1
        exact h1.of_cons
    have hhead : ∀ j, row.rechazoid = some j → j ∉ rowIds rest := by
      intro j hj
      have hco : rowIds (row :: rest) = j :: rowIds rest := by
        simp [rowIds, List.filterMap_cons, hj]
      rw [hco] at h1
      exact (List.nodup_cons.mp h1).1
    have hstep := processRow_ids_sub groups (store, res) (idx, row)
    have hmem := processRow_store_mem groups (store, res) (idx, row)
    have hnd' : (processRow groups (store, res) (idx, row)).2.updated_ids.Nodup :=
      processRow_ids_nodup groups (store, res) (idx, row) h3
        (fun j hj => h4 j (hmemIds j hj))
    show ((processRows groups (processRow groups (store, res) (idx, row))
      (idx + 1) rest).2.updated_ids).Nodup
    rcases hst : processRow groups (store, res) (idx, row) with ⟨store', res'⟩
    rw [hst] at hstep hmem hnd'
    have h2' : ∀ i ∈ rowIds rest, ∀ r' ∈ store',
        r'.rechazoid = i → r'.grpid ∉ groups := by
      intro i hi r' hr' heq
      obtain ⟨r, hrmem, hkey⟩ := hmem r' hr'
      have e1 : r'.rechazoid = r.rechazoid := congrArg Prod.fst hkey
      have e5 : r'.grpid = r.grpid := congrArg (fun q => q.2.2.2.2) hkey
      rw [e5]
      exact h2 i (hsubIds i hi) r hrmem (by rw [← e1, heq])
    have h4' : ∀ i ∈ rowIds rest, i ∉ res'.updated_ids := by
      intro i hi hin
      rcases hstep i hin with hc | hc | hc
      · exact h4 i (hsubIds i hi) hc
      · exact hhead i hc hi
      · obtain ⟨r, hrmem, hid, hgr⟩ := hc
        exact h2 i (hsubIds i hi) r hrmem hid hgr
    exact ih store' res' (idx + 1) h1' h2' hnd' h4'

/-- C2 counterexample: the primary append at line 72 is unconditional, so an
id propagated by an earlier row and later supplied as a primary row appears
twice in `updated_ids`.  Store: records 5 and 7 share country 1, barcode "B",
PROPSTID, group 10 (code-sharing); rows update 5 (propagating to 7) and then
7 itself, yielding `updated_ids = [5, 7, 7]`. -/
theorem claim_C2_counterexample :
    ¬ ((update_rechazos [10]
        [⟨5, none, none, none, some "PROPSTID", none, 1, some "B", 10, none,
           none, none, "u", "f"⟩,
         ⟨7, none, none, none, some "PROPSTID", none, 1, some "B", 10, none,
           none, none, "u", "f"⟩]
        [⟨"5", some 5, none, none, some "V", "U", "F"⟩,
         ⟨"7", some 7, none, none, none, "U", "F"⟩]).2.updated_ids).Nodup := by
  decide

/-- C2 (amended): ids appended by sibling propagation are deduplicated
against `updated_ids`, but each successfully converted row id is appended
unconditionally; the list is duplicate-free whenever the rows' ids are
pairwise distinct and no row id is the id of a store record whose group is
flagged as code-sharing. -/
theorem claim_C2_amended (groups : List Int) (store : List RejectionRecord)
    (rows : List UpdateRow)
    (h1 : (rowIds rows).Nodup)
    (h2 : ∀ i ∈ rowIds rows, ∀ r ∈ store, r.rechazoid = i → r.grpid ∉ groups) :
    ((update_rechazos groups store rows).2.updated_ids).Nodup := by
  unfold update_rechazos
  exact processRows_nodup groups rows store _ 0 h1 h2 List.nodup_nil
    (fun i _ h => (List.not_mem_nil i h).elim)

theorem claim_C2_amended_witness :
    (rowIds [⟨"5", some 5, none, none, some "V", "U", "F"⟩]).Nodup ∧
    (∀ i ∈ rowIds [⟨"5", some 5, none, none, some "V", "U", "F"⟩],
      ∀ r ∈ [(⟨5, none, none, none, some "PROPSTID", none, 1, some "B", 99,
                none, none, none, "u", "f"⟩ : RejectionRecord),
             ⟨7, none, none, none, some "PROPSTID", none, 1, some "B", 10,
                none, none, none, "u", "f"⟩],
        r.rechazoid = i → r.grpid ∉ [(10 : Int)]) ∧
    ((update_rechazos [10]
        [⟨5, none, none, none, some "PROPSTID", none, 1, some "B", 99, none,
           none, none, "u", "f"⟩,
         ⟨7, none, none, none, some "PROPSTID", none, 1, some "B", 10, none,
           none, none, "u", "f"⟩]
        [⟨"5", some 5, none, none, some "V", "U", "F"⟩]).2.updated_ids).Nodup := by
  refine ⟨by decide, by decide, ?_⟩
  exact claim_C2_amended [10] _ _ (by decide) (by decide)

/-- A failing row only increments `failed` and appends its message. -/
theorem processRow_frame_none (groups : List Int)
    (st : List RejectionRecord × UpdateResults) (p : Nat × UpdateRow)
    (h : p.2.rechazoid = none) :
    (processRow groups st p).1 = st.1 ∧
    (processRow groups st p).2.failed = st.2.failed + 1 ∧
    (processRow groups st p).2.errors = st.2.errors ++ [rowErrorMsg p.1 p.2] := by
  simp only [processRow, h]
  exact ⟨trivial, trivial, trivial⟩

/-- A successful row leaves the failure accounting untouched. -/
theorem processRow_frame_some (groups : List Int)
    (st : List RejectionRecord × UpdateResults) (p : Nat × UpdateRow)
    (rid : Int) (h : p.2.rechazoid = some rid) :
    (processRow groups st p).2.failed = st.2.failed ∧
    (processRow groups st p).2.errors = st.2.errors := by
  rcases hv : p.2.valorHomologacion with _ | v
  · simp only [processRow, h, hv]
    exact ⟨trivial, trivial⟩
  · rcases hfind : (st.1.map (applyRowUpdate p.2 rid)).find?
        (fun r => r.rechazoid == rid) with _ | info
    · simp only [processRow, h, hv, hfind]
      exact ⟨trivial, trivial⟩
    · by_cases hcampo : (info.campoRechazado == some "PROPSTID") = true
      · simp only [processRow, h, hv, hfind, hcampo, if_true]
        exact ⟨(addSharedIds_frame _ _).1, (addSharedIds_frame _ _).2.1⟩
      · simp only [processRow, h, hv, hfind]
        rw [if_neg hcampo]
        exact ⟨rfl, rfl⟩

/-- Failure accounting of the whole row loop: the failed count is the number
of failing rows and the error list carries exactly their messages in order,
so a failure never stops the remaining rows. -/
theorem processRows_failures (groups : List Int) :
    ∀ (rows : List UpdateRow) (store : List RejectionRecord)
      (res : UpdateResults) (idx : Nat),
      (processRows groups (store, res) idx rows).2.failed =
          res.failed + (rows.filter (fun row => row.rechazoid.isNone)).length ∧
      (processRows groups (store, res) idx rows).2.errors =
          res.errors ++ ((rows.enumFrom idx).filter
            (fun p => p.2.rechazoid.isNone)).map
              (fun p => rowErrorMsg p.1 p.2) := by
  intro rows
  induction rows with
  | nil =>
    intro store res idx
    exact ⟨rfl, by simp [processRows, List.enumFrom]⟩
  | cons row rest ih =>
    intro store res idx
    show (processRows groups (processRow groups (store, res) (idx, row))
        (idx + 1) rest).2.failed = _ ∧
      (processRows groups (processRow groups (store, res) (idx, row))
        (idx + 1) rest).2.errors = _
    rcases hst : processRow groups (store, res) (idx, row) with ⟨store', res'⟩
    rcases hr : row.rechazoid with _ | rid
    · obtain ⟨hs, hf, he⟩ := processRow_frame_none groups (store, res) (idx, row) hr
      rw [hst] at hs hf he
      obtain ⟨ihf, ihe⟩ := ih store' res' (idx + 1)
      constructor
      · rw [ihf, hf]
        simp [List.filter_cons, hr, Option.isNone]
        omega
      · rw [ihe, he]
        simp [List.enumFrom, List.filter_cons, hr]
    · obtain ⟨hf, he⟩ := processRow_frame_some groups (store, res) (idx, row) rid hr
      rw [hst] at hf he
      obtain ⟨ihf, ihe⟩ := ih store' res' (idx + 1)
      constructor
      · rw [ihf, hf]
        simp [List.filter_cons, hr, Option.isNone]
      · rw [ihe, he]
        simp [List.enumFrom, List.filter_cons, hr]

/-- C9: no failure escapes the workflow.  `update_rechazos` counts exactly
the failing rows in `failed`, its error list is exactly their messages in
input order (each carrying the 1-based row position and the row's raw id),
so remaining rows are still processed; and a deriver whose setup query
raises catches the exception, returning the partial summary with a single
"Error general" message and the homologation table untouched. -/
theorem claim_C9 (groups : List Int) (store : List RejectionRecord)
    (rows : List UpdateRow) (penv : ProdEnv) (senv : SucEnv) (e : String)
    (ids : List Int) (hids : ids ≠ []) :
    (update_rechazos groups store rows).2.failed =
        (rows.filter (fun row => row.rechazoid.isNone)).length ∧
    (update_rechazos groups store rows).2.errors =
        (rows.enum.filter (fun p => p.2.rechazoid.isNone)).map
          (fun p => rowErrorMsg p.1 p.2) ∧
    insert_homologaciones_from_rechazos penv (some e) ids =
        (penv.proTable,
          { emptyDeriv with errors := ["Error general: " ++ e] }, 0) ∧
    insert_homologaciones_sucursales_from_rechazos senv (some e) ids =
        (senv.sucTable,
          { emptyDeriv with errors := ["Error general: " ++ e] }, 0) := by
  have hne : ids.isEmpty = false := by
    simpa [List.isEmpty_iff] using hids
  refine ⟨?_, ?_, ?_, ?_⟩
  · have h := (processRows_failures groups rows store
      { total := rows.length, updated := 0, failed := 0
        errors := [], updated_ids := [] } 0).1
    simpa [update_rechazos] using h
  · have h := (processRows_failures groups rows store
      { total := rows.length, updated := 0, failed := 0
        errors := [], updated_ids := [] } 0).2
    simpa [update_rechazos, List.enum] using h
  · simp [insert_homologaciones_from_rechazos, hne]
  · simp [insert_homologaciones_sucursales_from_rechazos, hne]

theorem claim_C9_witness :
    ([(1 : Int)] ≠ []) ∧
    (update_rechazos [] []
        [⟨"nan", none, none, none, none, "U", "F"⟩]).2.failed = 1 ∧
    (update_rechazos [] []
        [⟨"nan", none, none, none, none, "U", "F"⟩]).2.errors =
      [rowErrorMsg 0 ⟨"nan", none, none, none, none, "U", "F"⟩] ∧
    insert_homologaciones_from_rechazos ⟨[], [], [], [], "t"⟩
        (some "boom") [1] =
      ([], { emptyDeriv with errors := ["Error general: " ++ "boom"] }, 0) ∧
    insert_homologaciones_sucursales_from_rechazos ⟨[], [], [], [], "t"⟩
        (some "boom") [1] =
      ([], { emptyDeriv with errors := ["Error general: " ++ "boom"] }, 0) := by
  refine ⟨by decide, ?_⟩
  exact claim_C9 [] [] [⟨"nan", none, none, none, none, "U", "F"⟩]
    ⟨[], [], [], [], "t"⟩ ⟨[], [], [], [], "t"⟩ "boom" [1] (by decide)

/-- A sibling is never the primary record. -/
theorem isSibling_ne (groups : List Int) (rid p : Int) (cb : String)
    (r : RejectionRecord) (h : isSibling groups rid p cb r = true) :
    r.rechazoid ≠ rid := by
  simp only [isSibling, Bool.and_eq_true, bne_iff_ne, ne_eq] at h
  exact h.1.1.1.1

/-- The primary UPDATE leaves non-matching records untouched. -/
theorem applyRowUpdate_ne (row : UpdateRow) (rid : Int) (r : RejectionRecord)
    (h : r.rechazoid ≠ rid) : applyRowUpdate row rid r = r := by
  unfold applyRowUpdate
  rw [if_neg h]


/-- A pair drawn from a list zipped with its own map relates by the map. -/
theorem mem_zip_self_map {α : Type} (h : α → α) :
    ∀ (l : List α) (pr : α × α), pr ∈ l.zip (l.map h) →
      pr.1 ∈ l ∧ pr.2 = h pr.1 := by
  intro l
  induction l with
  | nil => intro pr hpr; cases hpr
  | cons a t ih =>
    intro pr hpr
    rcases List.mem_cons.mp hpr with heq | hmem
    · rw [heq]
      exact ⟨List.mem_cons_self a t, rfl⟩
    · obtain ⟨hm, he⟩ := ih pr hmem
      exact ⟨List.mem_cons_of_mem _ hm, he⟩

/-- C1: when a row supplies a non-null homologated value and its target
record (looked up after the primary update) has rejected field PROPSTID,
`update_rechazos` updates every sibling record (same country, same barcode,
PROPSTID, group flagged as code-sharing): positionally, the stored sibling
becomes exactly the shared SET clause applied to it (the row's homologated
value and both its timestamps — the same values set on the primary), its id
enters `updated_ids`, and it occurs there exactly once. -/
theorem claim_C1 (groups : List Int) (store : List RejectionRecord)
    (row : UpdateRow) (rid : Int) (v : String) (info : RejectionRecord)
    (h1 : row.rechazoid = some rid)
    (h2 : row.valorHomologacion = some v)
    (h3 : (store.map (applyRowUpdate row rid)).find?
        (fun r => r.rechazoid == rid) = some info)
    (h4 : info.campoRechazado = some "PROPSTID") :
    ∀ pr ∈ store.zip (update_rechazos groups store [row]).1,
      isSibling groups rid info.paisid (pyStrOpt info.codigoBarras) pr.1 = true →
        pr.2 = applyShared v row.updateAt row.fechaSolucion pr.1 ∧
        pr.1.rechazoid ∈ (update_rechazos groups store [row]).2.updated_ids ∧
        (update_rechazos groups store [row]).2.updated_ids.count
          pr.1.rechazoid = 1 := by
  have h4' : (info.campoRechazado == some "PROPSTID") = true := by simp [h4]
  have hpair : update_rechazos groups store [row] =
      ((store.map (applyRowUpdate row rid)).map
         (fun r => if isSibling groups rid info.paisid
             (pyStrOpt info.codigoBarras) r = true then
             applyShared v row.updateAt row.fechaSolucion r else r),
       addSharedIds
         { total := 1, updated := 1, failed := 0, errors := []
           updated_ids := [rid] }
         ((((store.map (applyRowUpdate row rid)).map
             (fun r => if isSibling groups rid info.paisid
                 (pyStrOpt info.codigoBarras) r = true then
                 applyShared v row.updateAt row.fechaSolucion r else r)).filter
             (isSibling groups rid info.paisid
               (pyStrOpt info.codigoBarras))).map (fun r => r.rechazoid))) := by
    show processRow groups
      (store, { total := 1, updated := 0, failed := 0
                errors := [], updated_ids := [] }) (0, row) = _
    simp only [processRow, h1, h2, h3, h4', if_true]
    rfl
  rw [hpair]
  intro pr hpr hsib
  rw [List.map_map] at hpr
  obtain ⟨hmem, hval⟩ := mem_zip_self_map _ store pr hpr
  have hne := isSibling_ne groups rid info.paisid (pyStrOpt info.codigoBarras)
    pr.1 hsib
  have hfix : applyRowUpdate row rid pr.1 = pr.1 :=
    applyRowUpdate_ne row rid pr.1 hne
  have hgval : pr.2 = applyShared v row.updateAt row.fechaSolucion pr.1 := by
    rw [hval]
    simp only [Function.comp_apply, hfix, hsib, if_true]
  have hsibG : isSibling groups rid info.paisid (pyStrOpt info.codigoBarras)
      ((fun r => if isSibling groups rid info.paisid
          (pyStrOpt info.codigoBarras) r = true then
          applyShared v row.updateAt row.fechaSolucion r else r)
        (applyRowUpdate row rid pr.1)) = true := by
    rw [hfix]
    simp only [hsib, if_true]
    rw [isSibling_eq_of_sibKey groups rid info.paisid
      (pyStrOpt info.codigoBarras)
      (sibKey_applyShared v row.updateAt row.fechaSolucion pr.1)]
    exact hsib
  have hidG : ((fun r => if isSibling groups rid info.paisid
      (pyStrOpt info.codigoBarras) r = true then
      applyShared v row.updateAt row.fechaSolucion r else r)
        (applyRowUpdate row rid pr.1)).rechazoid = pr.1.rechazoid := by
    rw [hfix]
    simp only [hsib, if_true]
    rfl
  have hinShared : pr.1.rechazoid ∈
      ((((store.map (applyRowUpdate row rid)).map
          (fun r => if isSibling groups rid info.paisid
              (pyStrOpt info.codigoBarras) r = true then
              applyShared v row.updateAt row.fechaSolucion r else r)).filter
          (isSibling groups rid info.paisid
            (pyStrOpt info.codigoBarras))).map (fun r => r.rechazoid)) := by
    rw [← hidG]
    refine List.mem_map_of_mem _ (List.mem_filter.mpr ⟨?_, hsibG⟩)
    exact List.mem_map_of_mem _ (List.mem_map_of_mem _ hmem)
  have hmemIds : pr.1.rechazoid ∈
      (addSharedIds { total := 1, updated := 1, failed := 0, errors := []
                      updated_ids := [rid] } _).updated_ids :=
    addSharedIds_mem_of_mem _ _ _ hinShared
  refine ⟨hgval, hmemIds, ?_⟩
  have hle := addSharedIds_count_le
    ((((store.map (applyRowUpdate row rid)).map
        (fun r => if isSibling groups rid info.paisid
            (pyStrOpt info.codigoBarras) r = true then
            applyShared v row.updateAt row.fechaSolucion r else r)).filter
        (isSibling groups rid info.paisid
          (pyStrOpt info.codigoBarras))).map (fun r => r.rechazoid))
    { total := 1, updated := 1, failed := 0, errors := []
      updated_ids := [rid] } pr.1.rechazoid
  have hzero : ([rid] : List Int).count pr.1.rechazoid = 0 := by
    simp [List.count_singleton, hne]
  rw [hzero] at hle
  have hpos : 0 < (addSharedIds
      { total := 1, updated := 1, failed := 0, errors := []
        updated_ids := [rid] } _).updated_ids.count pr.1.rechazoid :=
    List.count_pos_iff.mpr hmemIds
  exact Nat.le_antisymm (by simpa using hle) hpos

theorem claim_C1_witness :
    (⟨"5", some 5, none, none, some "V", "U", "F"⟩ : UpdateRow).rechazoid =
        some 5 ∧
    (⟨"5", some 5, none, none, some "V", "U", "F"⟩ :
        UpdateRow).valorHomologacion = some "V" ∧
    (([(⟨5, none, none, none, some "PROPSTID", none, 1, some "B", 10, none,
          none, none, "u", "f"⟩ : RejectionRecord),
       ⟨7, none, none, none, some "PROPSTID", none, 1, some "B", 10, none,
          none, none, "u", "f"⟩].map
        (applyRowUpdate ⟨"5", some 5, none, none, some "V", "U", "F"⟩ 5)).find?
        (fun r => r.rechazoid == 5) =
      some ⟨5, none, none, some "V", some "PROPSTID", none, 1, some "B", 10,
        none, none, none, "U", "F"⟩) ∧
    (⟨5, none, none, some "V", some "PROPSTID", none, 1, some "B", 10,
        none, none, none, "U", "F"⟩ :
      RejectionRecord).campoRechazado = some "PROPSTID" ∧
    ∀ pr ∈ [(⟨5, none, none, none, some "PROPSTID", none, 1, some "B", 10,
              none, none, none, "u", "f"⟩ : RejectionRecord),
            ⟨7, none, none, none, some "PROPSTID", none, 1, some "B", 10,
              none, none, none, "u", "f"⟩].zip
        (update_rechazos [10]
          [⟨5, none, none, none, some "PROPSTID", none, 1, some "B", 10,
             none, none, none, "u", "f"⟩,
           ⟨7, none, none, none, some "PROPSTID", none, 1, some "B", 10,
             none, none, none, "u", "f"⟩]
          [⟨"5", some 5, none, none, some "V", "U", "F"⟩]).1,
      isSibling [10] 5 1 "B" pr.1 = true →
        pr.2 = applyShared "V" "U" "F" pr.1 ∧
        pr.1.rechazoid ∈ (update_rechazos [10]
          [⟨5, none, none, none, some "PROPSTID", none, 1, some "B", 10,
             none, none, none, "u", "f"⟩,
           ⟨7, none, none, none, some "PROPSTID", none, 1, some "B", 10,
             none, none, none, "u", "f"⟩]
          [⟨"5", some 5, none, none, some "V", "U", "F"⟩]).2.updated_ids ∧
        (update_rechazos [10]
          [⟨5, none, none, none, some "PROPSTID", none, 1, some "B", 10,
             none, none, none, "u", "f"⟩,
           ⟨7, none, none, none, some "PROPSTID", none, 1, some "B", 10,
             none, none, none, "u", "f"⟩]
          [⟨"5", some 5, none, none, some "V", "U", "F"⟩]).2.updated_ids.count
          pr.1.rechazoid = 1 := by
  refine ⟨by decide, by decide, by decide, by decide, ?_⟩
  exact claim_C1 [10]
    [⟨5, none, none, none, some "PROPSTID", none, 1, some "B", 10, none,
       none, none, "u", "f"⟩,
     ⟨7, none, none, none, some "PROPSTID", none, 1, some "B", 10, none,
       none, none, "u", "f"⟩]
    ⟨"5", some 5, none, none, some "V", "U", "F"⟩ 5 "V"
    ⟨5, none, none, some "V", some "PROPSTID", none, 1, some "B", 10, none,
      none, none, "U", "F"⟩
    (by decide) (by decide) (by decide) (by decide)

/-- Duplicate branch of one product-deriver iteration. -/
theorem prodStep_dup_eq (env : ProdEnv)
    (st : List ProdHom × DerivResults ProdDetail × Nat) (r : RejectionRecord)
    (hpos : 0 < prodKeyCount st.1 r.paisid (strOrEmpty r.valorRechazado)
      r.grpid) :
    prodStep env st r =
      (st.1, { st.2.1 with
                 duplicated := st.2.1.duplicated + 1
                 duplicates := st.2.1.duplicates ++ [prodDetailOf r] },
        st.2.2 + 1) := by
  simp only [prodStep, if_pos hpos]

/-- Insert branch of one product-deriver iteration. -/
theorem prodStep_ins_eq (env : ProdEnv)
    (st : List ProdHom × DerivResults ProdDetail × Nat) (r : RejectionRecord)
    (hpos : ¬ 0 < prodKeyCount st.1 r.paisid (strOrEmpty r.valorRechazado)
      r.grpid) :
    prodStep env st r =
      (st.1 ++ [prodNewRow env r],
        { st.2.1 with
            inserted := st.2.1.inserted + 1
            inserted_details := st.2.1.inserted_details ++ [prodDetailOf r] },
        (match r.semanas with
          | none => st.2.2 + 1
          | some _ => st.2.2 + 2) + 1) := by
  simp only [prodStep, if_neg hpos]

/-- Case analysis of one product-deriver iteration: an existing key makes a
duplicate (no table change, detail recorded); otherwise one row with the
record's key is appended and an inserted detail recorded. -/
theorem prodStep_cases (env : ProdEnv)
    (st : List ProdHom × DerivResults ProdDetail × Nat) (r : RejectionRecord) :
    (0 < prodKeyCount st.1 r.paisid (strOrEmpty r.valorRechazado) r.grpid ∧
      (prodStep env st r).1 = st.1 ∧
      (prodStep env st r).2.1.duplicates =
        st.2.1.duplicates ++ [prodDetailOf r] ∧
      (prodStep env st r).2.1.duplicated = st.2.1.duplicated + 1 ∧
      (prodStep env st r).2.1.inserted_details = st.2.1.inserted_details) ∨
    (prodKeyCount st.1 r.paisid (strOrEmpty r.valorRechazado) r.grpid = 0 ∧
      (∃ hrow : ProdHom, (prodStep env st r).1 = st.1 ++ [hrow] ∧
        hrow.paisid = r.paisid ∧ hrow.cod_prod = strOrEmpty r.valorRechazado ∧
        hrow.grpid = r.grpid) ∧
      (prodStep env st r).2.1.duplicates = st.2.1.duplicates ∧
      (prodStep env st r).2.1.duplicated = st.2.1.duplicated ∧
      (prodStep env st r).2.1.inserted_details =
        st.2.1.inserted_details ++ [prodDetailOf r]) := by
  by_cases hpos : 0 < prodKeyCount st.1 r.paisid (strOrEmpty r.valorRechazado)
    r.grpid
  · left
    rw [prodStep_dup_eq env st r hpos]
    exact ⟨hpos, rfl, rfl, rfl, rfl⟩
  · right
    rw [prodStep_ins_eq env st r hpos]
    exact ⟨Nat.eq_zero_of_not_pos hpos,
      ⟨prodNewRow env r, rfl, rfl, rfl, rfl⟩, rfl, rfl, rfl⟩

/-- Invariants of the product-deriver loop around a key already present in
the table: its row count never changes, recorded duplicates persist, no
record with that key is ever inserted, and every processed record carrying
that key is classified as a duplicate. -/
theorem prodLoop_inv (env : ProdEnv) (p : Int) (cod : String) (g : Int) :
    ∀ (l : List RejectionRecord)
      (st : List ProdHom × DerivResults ProdDetail × Nat),
      0 < prodKeyCount st.1 p cod g →
      prodKeyCount (prodLoop env st l).1 p cod g = prodKeyCount st.1 p cod g ∧
      (∀ d ∈ st.2.1.duplicates, d ∈ (prodLoop env st l).2.1.duplicates) ∧
      (∀ d ∈ (prodLoop env st l).2.1.inserted_details,
        d ∈ st.2.1.inserted_details ∨
          ¬ (d.paisid = p ∧ d.cod_prod = cod ∧ d.grpid = g)) ∧
      (∀ r ∈ l, r.paisid = p → strOrEmpty r.valorRechazado = cod →
        r.grpid = g → prodDetailOf r ∈ (prodLoop env st l).2.1.duplicates) := by
  intro l
  induction l with
  | nil =>
    intro st hpos
    exact ⟨rfl, fun d hd => hd, fun d hd => Or.inl hd,
      fun r hr => absurd hr (List.not_mem_nil r)⟩
  | cons a l' ih =>
    intro st hpos
    show prodKeyCount (prodLoop env (prodStep env st a) l').1 p cod g = _ ∧ _
    rcases prodStep_cases env st a with
      ⟨hp, h1, h2, h3, h4⟩ | ⟨hz, ⟨hrow, h1, hrp, hrc, hrg⟩, h2, h3, h4⟩
    · have hpos' : 0 < prodKeyCount (prodStep env st a).1 p cod g := by
        rw [h1]; exact hpos
      obtain ⟨i1, i2, i3, i4⟩ := ih (prodStep env st a) hpos'
      refine ⟨by rw [i1, h1], ?_, ?_, ?_⟩
      · intro d hd
        exact i2 d (by rw [h2]; exact List.mem_append.mpr (Or.inl hd))
      · intro d hd
        rcases i3 d hd with hin | hnm
        · rw [h4] at hin
          exact Or.inl hin
        · exact Or.inr hnm
      · intro r hr hp1 hc1 hg1
        rcases List.mem_cons.mp hr with rfl | hr'
        · apply i2
          rw [h2]
          exact List.mem_append.mpr (Or.inr (List.mem_singleton.mpr rfl))
        · exact i4 r hr' hp1 hc1 hg1
    · have hkc : prodKeyCount (st.1 ++ [hrow]) p cod g =
          prodKeyCount st.1 p cod g := by
        unfold prodKeyCount
        rw [List.filter_append, List.length_append]
        have hone : (List.filter
            (fun h => h.paisid == p && h.cod_prod == cod && h.grpid == g)
            [hrow]).length = 0 := by
          by_cases hm : (hrow.paisid == p && hrow.cod_prod == cod &&
              hrow.grpid == g) = true
          · exfalso
            simp only [Bool.and_eq_true, beq_iff_eq] at hm
            obtain ⟨⟨hmp, hmc⟩, hmg⟩ := hm
            rw [hrp] at hmp
            rw [hrc] at hmc
            rw [hrg] at hmg
            rw [← hmp, ← hmc, ← hmg] at hpos
            omega
          · simp [List.filter_cons, hm]
        omega
      have hpos' : 0 < prodKeyCount (prodStep env st a).1 p cod g := by
        rw [h1, hkc]
        exact hpos
      obtain ⟨i1, i2, i3, i4⟩ := ih (prodStep env st a) hpos'
      refine ⟨by rw [i1, h1, hkc], ?_, ?_, ?_⟩
      · intro d hd
        exact i2 d (by rw [h2]; exact hd)
      · intro d hd
        rcases i3 d hd with hin | hnm
        · rw [h4] at hin
          rcases List.mem_append.mp hin with hin' | hin'
          · exact Or.inl hin'
          · right
            rw [List.mem_singleton.mp hin']
            rintro ⟨hmp, hmc, hmg⟩
            have hmp' : a.paisid = p := hmp
            have hmc' : strOrEmpty a.valorRechazado = cod := hmc
            have hmg' : a.grpid = g := hmg
            rw [hmp', hmc', hmg'] at hz
            omega
        · exact Or.inr hnm
      · intro r hr hp1 hc1 hg1
        rcases List.mem_cons.mp hr with rfl | hr'
        · exfalso
          rw [hp1, hc1, hg1] at hz
          omega
        · exact i4 r hr' hp1 hc1 hg1

/-- The duplicated counter always equals the length of the duplicates list. -/
theorem prodLoop_dup_count (env : ProdEnv) :
    ∀ (l : List RejectionRecord)
      (st : List ProdHom × DerivResults ProdDetail × Nat),
      st.2.1.duplicated = st.2.1.duplicates.length →
      (prodLoop env st l).2.1.duplicated =
        (prodLoop env st l).2.1.duplicates.length := by
  intro l
  induction l with
  | nil => intro st h; exact h
  | cons a l' ih =>
    intro st h
    show (prodLoop env (prodStep env st a) l').2.1.duplicated = _
    apply ih
    rcases prodStep_cases env st a with
      ⟨_, _, h2, h3, _⟩ | ⟨_, _, h2, h3, _⟩
    · rw [h2, h3, h, List.length_append, List.length_singleton]
    · rw [h2, h3, h]

/-- C7: every selected record whose (countryId, productCode, groupId) triple
already exists in the product homologation table is classified as a
duplicate: its detail is recorded, the duplicated counter matches the
duplicates list, no insert carrying that triple is performed, and the rows
of the table under that triple are exactly the pre-existing ones. -/
theorem claim_C7 (env : ProdEnv) (ids : List Int) (r : RejectionRecord)
    (hsel : r ∈ selectRechazosProd env.store ids)
    (hkey : 0 < prodKeyCount env.proTable r.paisid
        (strOrEmpty r.valorRechazado) r.grpid) :
    prodDetailOf r ∈
      (insert_homologaciones_from_rechazos env none ids).2.1.duplicates ∧
    (insert_homologaciones_from_rechazos env none ids).2.1.duplicated =
      (insert_homologaciones_from_rechazos env none ids).2.1.duplicates.length ∧
    (∀ d ∈ (insert_homologaciones_from_rechazos env none ids).2.1.inserted_details,
      ¬ (d.paisid = r.paisid ∧ d.cod_prod = strOrEmpty r.valorRechazado ∧
          d.grpid = r.grpid)) ∧
    prodKeyCount (insert_homologaciones_from_rechazos env none ids).1
        r.paisid (strOrEmpty r.valorRechazado) r.grpid =
      prodKeyCount env.proTable r.paisid (strOrEmpty r.valorRechazado)
        r.grpid := by
  have hid : ids.isEmpty = false := by
    rcases ids with _ | ⟨a, t⟩
    · exfalso
      simp [selectRechazosProd] at hsel
    · rfl
  have hlen : ¬ (selectRechazosProd env.store ids).length = 0 := by
    simp only [List.length_eq_zero]
    exact List.ne_nil_of_mem hsel
  have hrw : insert_homologaciones_from_rechazos env none ids =
      prodLoop env (env.proTable,
        { emptyDeriv with total := (selectRechazosProd env.store ids).length },
        1 + (if (selectRechazosProd env.store ids).any
              (fun r => r.valorHomologacion.isSome) then 1 else 0))
        (selectRechazosProd env.store ids) := by
    simp only [insert_homologaciones_from_rechazos, hid, Bool.false_eq_true,
      if_false]
    rw [if_neg hlen]
  rw [hrw]
  obtain ⟨i1, i2, i3, i4⟩ := prodLoop_inv env r.paisid
    (strOrEmpty r.valorRechazado) r.grpid (selectRechazosProd env.store ids)
    (env.proTable,
      { emptyDeriv with total := (selectRechazosProd env.store ids).length },
      1 + (if (selectRechazosProd env.store ids).any
            (fun r => r.valorHomologacion.isSome) then 1 else 0)) hkey
  refine ⟨i4 r hsel rfl rfl rfl, ?_, ?_, i1⟩
  · exact prodLoop_dup_count env (selectRechazosProd env.store ids) _ rfl
  · intro d hd
    rcases i3 d hd with hin | hnm
    · exact absurd hin (List.not_mem_nil d)
    · exact hnm

theorem claim_C7_witness :
    ((⟨1, none, some "Gobierno de Datos", some "P9", some "PROPSTID",
        some "C1", 7, some "B", 3, some "Sellout",
        some "Producto no encontrado en tabla de homologación", none,
        "u", "f"⟩ : RejectionRecord) ∈
      selectRechazosProd
        [⟨1, none, some "Gobierno de Datos", some "P9", some "PROPSTID",
           some "C1", 7, some "B", 3, some "Sellout",
           some "Producto no encontrado en tabla de homologación", none,
           "u", "f"⟩] [1]) ∧
    0 < prodKeyCount
        [⟨7, "C1", "D0", 3, "P0", none, true, "c", "c", none,
           "2999-12-31 00:00:00"⟩] 7 "C1" 3 ∧
    prodDetailOf
        ⟨1, none, some "Gobierno de Datos", some "P9", some "PROPSTID",
          some "C1", 7, some "B", 3, some "Sellout",
          some "Producto no encontrado en tabla de homologación", none,
          "u", "f"⟩ ∈
      (insert_homologaciones_from_rechazos
        ⟨[⟨1, none, some "Gobierno de Datos", some "P9", some "PROPSTID",
            some "C1", 7, some "B", 3, some "Sellout",
            some "Producto no encontrado en tabla de homologación", none,
            "u", "f"⟩],
          [⟨7, "C1", "D0", 3, "P0", none, true, "c", "c", none,
             "2999-12-31 00:00:00"⟩], [], [], "t"⟩ none [1]).2.1.duplicates := by
  refine ⟨by decide, by decide, ?_⟩
  exact (claim_C7
    ⟨[⟨1, none, some "Gobierno de Datos", some "P9", some "PROPSTID",
        some "C1", 7, some "B", 3, some "Sellout",
        some "Producto no encontrado en tabla de homologación", none,
        "u", "f"⟩],
      [⟨7, "C1", "D0", 3, "P0", none, true, "c", "c", none,
         "2999-12-31 00:00:00"⟩], [], [], "t"⟩ [1]
    ⟨1, none, some "Gobierno de Datos", some "P9", some "PROPSTID",
      some "C1", 7, some "B", 3, some "Sellout",
      some "Producto no encontrado en tabla de homologación", none,
      "u", "f"⟩ (by decide) (by decide)).1

/-- Unresolved-branch iteration: count the failure, append the message,
touch nothing else (lines 357-360). -/
theorem sucStep_fail_eq (env : SucEnv)
    (st : List SucHom × DerivResults SucDetail × Nat) (r : RejectionRecord)
    (h : env.sucView.find?
        (fun m => m.sucid == strOrEmpty r.valorHomologacion) = none) :
    sucStep env st r =
      (st.1, { st.2.1 with
                 failed := st.2.1.failed + 1
                 errors := st.2.1.errors ++
                   [sucNotFoundMsg r.rechazoid
                     (strOrEmpty r.valorHomologacion)] },
        st.2.2 + 1) := by
  simp only [sucStep, h]

/-- Resolved duplicate branch of one branch-deriver iteration. -/
theorem sucStep_dup_eq (env : SucEnv)
    (st : List SucHom × DerivResults SucDetail × Nat) (r : RejectionRecord)
    (meta : SucMeta)
    (h : env.sucView.find?
        (fun m => m.sucid == strOrEmpty r.valorHomologacion) = some meta)
    (hdup : 0 < sucKeyCount st.1 r.paisid (strOrEmpty r.valorRechazado)
      meta.grpid) :
    sucStep env st r =
      (st.1, { st.2.1 with
                 duplicated := st.2.1.duplicated + 1
                 duplicates := st.2.1.duplicates ++ [sucDetailOf r meta] },
        st.2.2 + 2) := by
  simp only [sucStep, h, if_pos hdup]

/-- Resolved insert branch of one branch-deriver iteration. -/
theorem sucStep_ins_eq (env : SucEnv)
    (st : List SucHom × DerivResults SucDetail × Nat) (r : RejectionRecord)
    (meta : SucMeta)
    (h : env.sucView.find?
        (fun m => m.sucid == strOrEmpty r.valorHomologacion) = some meta)
    (hdup : ¬ 0 < sucKeyCount st.1 r.paisid (strOrEmpty r.valorRechazado)
      meta.grpid) :
    sucStep env st r =
      (st.1 ++ [sucNewRow env r meta],
        { st.2.1 with
            inserted := st.2.1.inserted + 1
            inserted_details := st.2.1.inserted_details ++
              [sucDetailOf r meta] },
        (match r.semanas with
          | none => st.2.2 + 2
          | some _ => st.2.2 + 3) + 1) := by
  simp only [sucStep, h, if_neg hdup]

/-- Resolved-branch iteration: failure accounting untouched; any recorded
detail or inserted row carries the record's (resolvable) branch id. -/
theorem sucStep_resolved (env : SucEnv)
    (st : List SucHom × DerivResults SucDetail × Nat) (r : RejectionRecord)
    (meta : SucMeta)
    (h : env.sucView.find?
        (fun m => m.sucid == strOrEmpty r.valorHomologacion) = some meta) :
    (sucStep env st r).2.1.errors = st.2.1.errors ∧
    (sucStep env st r).2.1.failed = st.2.1.failed ∧
    ((sucStep env st r).2.1.duplicates = st.2.1.duplicates ∨
      (sucStep env st r).2.1.duplicates = st.2.1.duplicates ++
        [sucDetailOf r meta]) ∧
    ((sucStep env st r).2.1.inserted_details = st.2.1.inserted_details ∨
      (sucStep env st r).2.1.inserted_details = st.2.1.inserted_details ++
        [sucDetailOf r meta]) ∧
    ((sucStep env st r).1 = st.1 ∨ ∃ hrow : SucHom,
      (sucStep env st r).1 = st.1 ++ [hrow] ∧
      hrow.sucid = strOrEmpty r.valorHomologacion) := by
  by_cases hdup : 0 < sucKeyCount st.1 r.paisid (strOrEmpty r.valorRechazado)
    meta.grpid
  · rw [sucStep_dup_eq env st r meta h hdup]
    exact ⟨rfl, rfl, Or.inr rfl, Or.inl rfl, Or.inl rfl⟩
  · rw [sucStep_ins_eq env st r meta h hdup]
    exact ⟨rfl, rfl, Or.inl rfl, Or.inr rfl,
      Or.inr ⟨sucNewRow env r meta, rfl, rfl⟩⟩

/-- Invariants of the branch-deriver loop: errors persist and stay in step
with the failed counter, every unresolved record contributes its message,
and every recorded detail or inserted row carries a resolvable branch id. -/
theorem sucLoop_inv (env : SucEnv) :
    ∀ (l : List RejectionRecord)
      (st : List SucHom × DerivResults SucDetail × Nat),
      (∀ m ∈ st.2.1.errors, m ∈ (sucLoop env st l).2.1.errors) ∧
      (st.2.1.failed = st.2.1.errors.length →
        (sucLoop env st l).2.1.failed =
          (sucLoop env st l).2.1.errors.length) ∧
      (∀ r ∈ l, env.sucView.find?
          (fun m => m.sucid == strOrEmpty r.valorHomologacion) = none →
        sucNotFoundMsg r.rechazoid (strOrEmpty r.valorHomologacion) ∈
          (sucLoop env st l).2.1.errors) ∧
      (∀ d ∈ (sucLoop env st l).2.1.duplicates,
        d ∈ st.2.1.duplicates ∨
          (env.sucView.find? (fun m => m.sucid == d.sucid)).isSome) ∧
      (∀ d ∈ (sucLoop env st l).2.1.inserted_details,
        d ∈ st.2.1.inserted_details ∨
          (env.sucView.find? (fun m => m.sucid == d.sucid)).isSome) ∧
      (∀ hrow ∈ (sucLoop env st l).1,
        hrow ∈ st.1 ∨
          (env.sucView.find? (fun m => m.sucid == hrow.sucid)).isSome) := by
  intro l
  induction l with
  | nil =>
    intro st
    exact ⟨fun m hm => hm, fun h => h,
      fun r hr => absurd hr (List.not_mem_nil r),
      fun d hd => Or.inl hd, fun d hd => Or.inl hd,
      fun hrow hh => Or.inl hh⟩
  | cons a l' ih =>
    intro st
    show (∀ m ∈ st.2.1.errors,
        m ∈ (sucLoop env (sucStep env st a) l').2.1.errors) ∧ _
    obtain ⟨i1, i2, i3, i4, i5, i6⟩ := ih (sucStep env st a)
    rcases hfa : env.sucView.find?
        (fun m => m.sucid == strOrEmpty a.valorHomologacion) with _ | meta
    · have heq := sucStep_fail_eq env st a hfa
      refine ⟨?_, ?_, ?_, ?_, ?_, ?_⟩
      · intro m hm
        apply i1
        rw [heq]
        exact List.mem_append.mpr (Or.inl hm)
      · intro hbase
        apply i2
        rw [heq]
        simp only [List.length_append, List.length_singleton, hbase]
      · intro r hr hnone
        rcases List.mem_cons.mp hr with rfl | hr'
        · apply i1
          rw [heq]
          exact List.mem_append.mpr (Or.inr (List.mem_singleton.mpr rfl))
        · exact i3 r hr' hnone
      · intro d hd
        rcases i4 d hd with hin | hP
        · rw [heq] at hin
          exact Or.inl hin
        · exact Or.inr hP
      · intro d hd
        rcases i5 d hd with hin | hP
        · rw [heq] at hin
          exact Or.inl hin
        · exact Or.inr hP
      · intro hrow hh
        rcases i6 hrow hh with hin | hP
        · rw [heq] at hin
          exact Or.inl hin
        · exact Or.inr hP
    · obtain ⟨he, hf, hd2, hi2, ht2⟩ := sucStep_resolved env st a meta hfa
      refine ⟨?_, ?_, ?_, ?_, ?_, ?_⟩
      · intro m hm
        apply i1
        rw [he]
        exact hm
      · intro hbase
        apply i2
        rw [he, hf]
        exact hbase
      · intro r hr hnone
        rcases List.mem_cons.mp hr with rfl | hr'
        · rw [hfa] at hnone
          cases hnone
        · exact i3 r hr' hnone
      · intro d hd
        rcases i4 d hd with hin | hP
        · rcases hd2 with hd2 | hd2
          · rw [hd2] at hin
            exact Or.inl hin
          · rw [hd2] at hin
            rcases List.mem_append.mp hin with hin' | hin'
            · exact Or.inl hin'
            · right
              rw [List.mem_singleton.mp hin']
              rw [show (sucDetailOf a meta).sucid =
                strOrEmpty a.valorHomologacion from rfl]
              rw [hfa]
              rfl
        · exact Or.inr hP
      · intro d hd
        rcases i5 d hd with hin | hP
        · rcases hi2 with hi2 | hi2
          · rw [hi2] at hin
            exact Or.inl hin
          · rw [hi2] at hin
            rcases List.mem_append.mp hin with hin' | hin'
            · exact Or.inl hin'
            · right
              rw [List.mem_singleton.mp hin']
              rw [show (sucDetailOf a meta).sucid =
                strOrEmpty a.valorHomologacion from rfl]
              rw [hfa]
              rfl
        · exact Or.inr hP
      · intro hrow hh
        rcases i6 hrow hh with hin | hP
        · rcases ht2 with ht2 | ⟨hrow2, ht2, hsid⟩
          · rw [ht2] at hin
            exact Or.inl hin
          · rw [ht2] at hin
            rcases List.mem_append.mp hin with hin' | hin'
            · exact Or.inl hin'
            · right
              rw [List.mem_singleton.mp hin', hsid, hfa]
              rfl
        · exact Or.inr hP

/-- C8: a selected branch record whose homologated branch id resolves to no
metadata is counted as failed with an error naming the unresolved id (the
failed counter stays equal to the error-list length), while no duplicate
detail, no inserted detail and no inserted table row carries that id, and
the remaining records are still processed. -/
theorem claim_C8 (env : SucEnv) (ids : List Int) (r : RejectionRecord)
    (hsel : r ∈ selectRechazosSuc env.store ids)
    (hmeta : env.sucView.find?
        (fun m => m.sucid == strOrEmpty r.valorHomologacion) = none) :
    sucNotFoundMsg r.rechazoid (strOrEmpty r.valorHomologacion) ∈
      (insert_homologaciones_sucursales_from_rechazos env none ids).2.1.errors ∧
    (insert_homologaciones_sucursales_from_rechazos env none ids).2.1.failed =
      (insert_homologaciones_sucursales_from_rechazos env none
        ids).2.1.errors.length ∧
    (∀ d ∈ (insert_homologaciones_sucursales_from_rechazos env none
        ids).2.1.duplicates, d.sucid ≠ strOrEmpty r.valorHomologacion) ∧
    (∀ d ∈ (insert_homologaciones_sucursales_from_rechazos env none
        ids).2.1.inserted_details,
      d.sucid ≠ strOrEmpty r.valorHomologacion) ∧
    (∀ hrow ∈ (insert_homologaciones_sucursales_from_rechazos env none ids).1,
      hrow ∈ env.sucTable ∨ hrow.sucid ≠ strOrEmpty r.valorHomologacion) := by
  have hid : ids.isEmpty = false := by
    rcases ids with _ | ⟨a, t⟩
    · exfalso
      simp [selectRechazosSuc] at hsel
    · rfl
  have hlen : ¬ (selectRechazosSuc env.store ids).length = 0 := by
    simp only [List.length_eq_zero]
    exact List.ne_nil_of_mem hsel
  have hrw : insert_homologaciones_sucursales_from_rechazos env none ids =
      sucLoop env (env.sucTable,
        { emptyDeriv with total := (selectRechazosSuc env.store ids).length },
        1) (selectRechazosSuc env.store ids) := by
    simp only [insert_homologaciones_sucursales_from_rechazos, hid,
      Bool.false_eq_true, if_false]
    rw [if_neg hlen]
  rw [hrw]
  obtain ⟨i1, i2, i3, i4, i5, i6⟩ := sucLoop_inv env
    (selectRechazosSuc env.store ids)
    (env.sucTable,
      { emptyDeriv with total := (selectRechazosSuc env.store ids).length },
      1)
  have hIdOf : ∀ (s : String),
      (env.sucView.find? (fun m => m.sucid == s)).isSome →
        s ≠ strOrEmpty r.valorHomologacion := by
    intro s hs heq
    rw [heq, hmeta] at hs
    cases hs
  refine ⟨i3 r hsel hmeta, i2 rfl, ?_, ?_, ?_⟩
  · intro d hd
    rcases i4 d hd with hin | hP
    · exact absurd hin (List.not_mem_nil d)
    · exact hIdOf d.sucid hP
  · intro d hd
    rcases i5 d hd with hin | hP
    · exact absurd hin (List.not_mem_nil d)
    · exact hIdOf d.sucid hP
  · intro hrow hh
    rcases i6 hrow hh with hin | hP
    · exact Or.inl hin
    · exact Or.inr (hIdOf hrow.sucid hP)

theorem claim_C8_witness :
    ((⟨2, some "Homologacion Sucursal", some "Gobierno de Datos", some "S9",
        some "SUCID", some "N1", 7, none, 3, some "Sellout",
        some "Sucursal no encontrada en tabla de homologación", none,
        "u", "f"⟩ : RejectionRecord) ∈
      selectRechazosSuc
        [⟨2, some "Homologacion Sucursal", some "Gobierno de Datos",
           some "S9", some "SUCID", some "N1", 7, none, 3, some "Sellout",
           some "Sucursal no encontrada en tabla de homologación", none,
           "u", "f"⟩] [2]) ∧
    (([] : List SucMeta).find? (fun m => m.sucid == strOrEmpty (some "S9")) =
      none) ∧
    sucNotFoundMsg 2 (strOrEmpty (some "S9")) ∈
      (insert_homologaciones_sucursales_from_rechazos
        ⟨[⟨2, some "Homologacion Sucursal", some "Gobierno de Datos",
            some "S9", some "SUCID", some "N1", 7, none, 3, some "Sellout",
            some "Sucursal no encontrada en tabla de homologación", none,
            "u", "f"⟩], [], [], [], "t"⟩ none [2]).2.1.errors := by
  refine ⟨by decide, by decide, ?_⟩
  exact (claim_C8
    ⟨[⟨2, some "Homologacion Sucursal", some "Gobierno de Datos",
        some "S9", some "SUCID", some "N1", 7, none, 3, some "Sellout",
        some "Sucursal no encontrada en tabla de homologación", none,
        "u", "f"⟩], [], [], [], "t"⟩ [2]
    ⟨2, some "Homologacion Sucursal", some "Gobierno de Datos", some "S9",
      some "SUCID", some "N1", 7, none, 3, some "Sellout",
      some "Sucursal no encontrada en tabla de homologación", none,
      "u", "f"⟩ (by decide) (by decide)).1

/-! ### Idempotence of the transform (claim C3): cell-level lemmas -/

/-- A prefix of a list with no leading `p`-run has none either. -/
theorem dropWhile_prefix_eq {α : Type} (p : α → Bool) :
    ∀ (l l' : List α), l' <+: l → l.dropWhile p = l → l'.dropWhile p = l' := by
  intro l l' hpre hl
  rcases l' with _ | ⟨a, t⟩
  · rfl
  · obtain ⟨rest, hrest⟩ := hpre
    by_cases hpa : p a = true
    · exfalso
      rw [← hrest, List.cons_append, List.dropWhile_cons, if_pos hpa] at hl
      have hlen := congrArg List.length hl
      have hle : ((t ++ rest).dropWhile p).length ≤ (t ++ rest).length :=
        List.Sublist.length_le (List.IsSuffix.sublist (List.dropWhile_suffix p))
      simp only [List.length_cons] at hlen
      omega
    · rw [List.dropWhile_cons, if_neg hpa]

theorem trimChars_idem (l : List Char) :
    trimChars (trimChars l) = trimChars l := by
  unfold trimChars
  have hstep : (((l.dropWhile Char.isWhitespace).reverse.dropWhile
        Char.isWhitespace).reverse).dropWhile Char.isWhitespace =
      ((l.dropWhile Char.isWhitespace).reverse.dropWhile
        Char.isWhitespace).reverse := by
    apply dropWhile_prefix_eq Char.isWhitespace
      (l.dropWhile Char.isWhitespace)
    · have h1 : ((l.dropWhile Char.isWhitespace).reverse.dropWhile
          Char.isWhitespace) <:+ (l.dropWhile Char.isWhitespace).reverse :=
        List.dropWhile_suffix _
      have h2 := List.reverse_prefix.mpr h1
      rwa [List.reverse_reverse] at h2
    · exact List.dropWhile_idempotent _ _
  rw [hstep, List.reverse_reverse, List.dropWhile_idempotent]

theorem pyStrip_idem (s : String) : pyStrip (pyStrip s) = pyStrip s := by
  show String.mk (trimChars (trimChars s.data)) = String.mk (trimChars s.data)
  rw [trimChars_idem]

theorem coerceCell_idem (c : Cell) :
    coerceCell (coerceCell c) = coerceCell c := by
  rcases c with s | n | _ | _ | t
  · rcases hp : parseNum s with _ | n
    · simp only [coerceCell, hp]
    · simp only [coerceCell, hp]
  · rfl
  · rfl
  · rfl
  · rfl

/-- Re-normalizing a normalized string cell is the identity, unless the
first pass stored a `None` (which the second pass renders as "None"). -/
theorem normStrCell_idem_of_ne (c : Cell) (h : normStrCell c ≠ Cell.pyNone) :
    normStrCell (normStrCell c) = normStrCell c := by
  by_cases hs : (pyStrip (cellToStr c) == "nan") = true
  · exfalso
    apply h
    simp only [normStrCell, hs, if_true]
  · have h1 : normStrCell c = Cell.str (pyStrip (cellToStr c)) := by
      simp only [normStrCell]
      rw [if_neg hs]
    rw [h1]
    have h2 : cellToStr (Cell.str (pyStrip (cellToStr c))) =
        pyStrip (cellToStr c) := rfl
    simp only [normStrCell, h2, pyStrip_idem]
    rw [if_neg hs]

/-- A stored `None` is not re-collapsed: the second normalization pass
stringifies it to the literal "None". -/
theorem normStrCell_pyNone : normStrCell Cell.pyNone = Cell.str "None" := by
  decide

/-- Masking by a column's own non-null marks is exactly `dropna`. -/
theorem applyMask_self (cells : List Cell) :
    applyMask (cells.map cellNotNull) cells = dropnaCells cells := by
  induction cells with
  | nil => rfl
  | cons c t ih =>
    unfold applyMask dropnaCells at ih ⊢
    simp only [List.map_cons, List.zip_cons_cons, List.filterMap_cons,
      List.filter_cons]
    by_cases h : cellNotNull c = true
    · simp [h, ih]
    · simp only [Bool.not_eq_true] at h
      simp [h, ih]

/-- An all-true mask of matching length keeps every cell. -/
theorem applyMask_replicate_true : ∀ (cells : List Cell),
    applyMask (List.replicate cells.length true) cells = cells := by
  intro cells
  induction cells with
  | nil => rfl
  | cons c t ih =>
    unfold applyMask at ih ⊢
    simp only [List.length_cons, List.replicate_succ, List.zip_cons_cons,
      List.filterMap_cons, if_true, ih]

theorem mem_applyMask (mask : List Bool) (cells : List Cell) :
    ∀ c ∈ applyMask mask cells, c ∈ cells := by
  intro c hc
  unfold applyMask at hc
  obtain ⟨⟨b, x⟩, hmem, hx⟩ := List.mem_filterMap.mp hc
  by_cases hb : b = true
  · rw [if_pos hb] at hx
    cases hx
    exact (List.of_mem_zip hmem).2
  · rw [if_neg hb] at hx
    cases hx

/-- Masked length only depends on the mask and the column length. -/
theorem applyMask_length_eq (mask : List Bool) :
    ∀ (c1 c2 : List Cell), c1.length = c2.length →
      (applyMask mask c1).length = (applyMask mask c2).length := by
  induction mask with
  | nil => intro c1 c2 _; rfl
  | cons b mt ih =>
    intro c1 c2 h
    rcases c1 with _ | ⟨x, t1⟩ <;> rcases c2 with _ | ⟨y, t2⟩
    · rfl
    · simp at h
    · simp at h
    · unfold applyMask
      simp only [List.zip_cons_cons, List.filterMap_cons]
      have ht : t1.length = t2.length := by simpa using h
      by_cases hb : b = true
      · simp only [hb, if_true, List.length_cons]
        exact congrArg Nat.succ (ih t1 t2 ht)
      · simp only [Bool.not_eq_true] at hb
        simp only [hb]
        exact ih t1 t2 ht

/-! ### Idempotence of the transform: column-structure lemmas -/

/-- Name-based filtering commutes with a name-preserving column map. -/
theorem filter_name_map (F : String × List Cell → String × List Cell)
    (hF : ∀ p, (F p).1 = p.1) (a : String) (l : List (String × List Cell)) :
    (l.map F).filter (fun p => p.1 == a) =
      (l.filter (fun p => p.1 == a)).map F := by
  rw [List.filter_map]
  congr 1
  apply List.filter_congr
  intro p _
  simp [Function.comp, hF]

theorem flatMap_congr_mem {α β : Type} (l : List α) (f g : α → List β)
    (h : ∀ a ∈ l, f a = g a) : l.flatMap f = l.flatMap g := by
  induction l with
  | nil => rfl
  | cons a t ih =>
    simp only [List.flatMap_cons, h a (List.mem_cons_self a t),
      ih (fun x hx => h x (List.mem_cons_of_mem _ hx))]

theorem filter_name_of_ne (a b : String) (hne : b ≠ a)
    (l : List (String × List Cell)) :
    (l.filter (fun p => p.1 == b)).filter (fun p => p.1 == a) = [] := by
  rw [List.filter_filter]
  apply List.filter_eq_nil_iff.mpr
  intro p _
  simp only [Bool.and_eq_true, beq_iff_eq, not_and]
  intro h1 h2
  exact hne (h2 ▸ h1)

theorem filter_name_self (a : String) (l : List (String × List Cell)) :
    (l.filter (fun p => p.1 == a)).filter (fun p => p.1 == a) =
      l.filter (fun p => p.1 == a) := by
  rw [List.filter_filter]
  apply List.filter_congr
  intro p _
  simp [Bool.and_self]

theorem filter_name_flatMap (l : List (String × List Cell)) :
    ∀ (names : List String), names.Nodup → ∀ a ∈ names,
      ((names.flatMap (fun b => l.filter (fun p => p.1 == b))).filter
        (fun p => p.1 == a)) = l.filter (fun p => p.1 == a) := by
  intro names
  induction names with
  | nil => intro _ a ha; cases ha
  | cons b rest ih =>
    intro hnd a ha
    simp only [List.flatMap_cons, List.filter_append]
    rcases List.mem_cons.mp ha with rfl | ha'
    · rw [filter_name_self]
      have hzero : ((rest.flatMap
          (fun c => l.filter (fun p => p.1 == c))).filter
          (fun p => p.1 == a)) = [] := by
        apply List.filter_eq_nil_iff.mpr
        intro p hp
        obtain ⟨c, hc, hpc⟩ := List.mem_flatMap.mp hp
        have hpc1 : p.1 = c := by
          simpa using (List.mem_filter.mp hpc).2
        simp only [beq_iff_eq, hpc1]
        intro hca
        exact (List.nodup_cons.mp hnd).1 (hca ▸ hc)
      rw [hzero, List.append_nil]
    · have hab : b ≠ a := fun he => (List.nodup_cons.mp hnd).1 (he ▸ ha')
      rw [filter_name_of_ne a b hab, List.nil_append]
      exact ih (List.nodup_cons.mp hnd).2 a ha'

/-- The canonical column order produced by the projection. -/
def ColsOrdered (df : DF) : Prop :=
  df.cols =
    AVAILABLE_COLUMNS.flatMap (fun a => df.cols.filter (fun p => p.1 == a))

theorem colsOrdered_projectCols (df : DF) : ColsOrdered (projectCols df) := by
  unfold ColsOrdered projectCols
  exact (flatMap_congr_mem AVAILABLE_COLUMNS _ _
    (fun a ha => filter_name_flatMap df.cols AVAILABLE_COLUMNS
      (by decide) a ha)).symm

theorem colsOrdered_map (df : DF) (F : String × List Cell → String × List Cell)
    (hF : ∀ p, (F p).1 = p.1) (h : ColsOrdered df) :
    ColsOrdered ⟨df.cols.map F⟩ := by
  unfold ColsOrdered at h ⊢
  show df.cols.map F = _
  conv_lhs => rw [h]
  rw [List.map_flatMap]
  apply flatMap_congr_mem
  intro a _
  rw [filter_name_map F hF]

theorem projectCols_of_ordered (df : DF) (h : ColsOrdered df) :
    projectCols df = df := by
  unfold projectCols
  conv_rhs => rw [show df = ⟨df.cols⟩ from rfl, h]

theorem names_projectCols (df : DF) :
    ∀ c ∈ (projectCols df).cols, c.1 ∈ AVAILABLE_COLUMNS := by
  intro c hc
  obtain ⟨a, ha, hc'⟩ := List.mem_flatMap.mp hc
  have h2 : c.1 = a := by
    simpa using (List.mem_filter.mp hc').2
  exact h2 ▸ ha

theorem map_mem_id {α : Type} (l : List α) (f : α → α)
    (h : ∀ x ∈ l, f x = x) : l.map f = l := by
  induction l with
  | nil => rfl
  | cons a t ih =>
    simp only [List.map_cons, h a (List.mem_cons_self a t),
      ih (fun x hx => h x (List.mem_cons_of_mem _ hx))]

/-- Filtering on a name predicate commutes with a name-preserving map. -/
theorem filter_pred_map (pred : String → Bool)
    (F : String × List Cell → String × List Cell)
    (hF : ∀ p, (F p).1 = p.1) (l : List (String × List Cell)) :
    (l.map F).filter (fun p => pred p.1) =
      (l.filter (fun p => pred p.1)).map F := by
  rw [List.filter_map]
  congr 1
  apply List.filter_congr
  intro p _
  simp [Function.comp, hF]

/-- Number of columns carrying a given label. -/
def countName (df : DF) (n : String) : Nat :=
  (df.cols.filter (fun p => p.1 == n)).length

/-- Column counts under a fixed name survive a name-preserving map. -/
theorem countName_map (df : DF) (F : String × List Cell → String × List Cell)
    (hF : ∀ p, (F p).1 = p.1) (n : String) :
    countName ⟨df.cols.map F⟩ n = countName df n := by
  unfold countName
  show ((df.cols.map F).filter (fun p => p.1 == n)).length = _
  rw [filter_name_map F hF, List.length_map]

theorem countName_projectCols (df : DF) (n : String)
    (hn : n ∈ AVAILABLE_COLUMNS) :
    countName (projectCols df) n = countName df n := by
  unfold countName projectCols
  rw [filter_name_flatMap df.cols AVAILABLE_COLUMNS (by decide) n hn]

/-- A list of length at most one has all members equal. -/
theorem length_le_one_mem_eq {α : Type} (l : List α) (h : l.length ≤ 1) :
    ∀ a ∈ l, ∀ b ∈ l, a = b := by
  rcases l with _ | ⟨x, t⟩
  · intro a ha; cases ha
  · rcases t with _ | ⟨y, u⟩
    · intro a ha b hb
      rw [List.mem_singleton.mp ha, List.mem_singleton.mp hb]
    · simp at h

/-- All-non-null cells give an all-true mask. -/
theorem map_cellNotNull_replicate (cells : List Cell)
    (h : ∀ x ∈ cells, cellNotNull x = true) :
    cells.map cellNotNull = List.replicate cells.length true := by
  induction cells with
  | nil => rfl
  | cons c t ih =>
    simp only [List.map_cons, h c (List.mem_cons_self c t),
      List.length_cons, List.replicate_succ,
      ih (fun x hx => h x (List.mem_cons_of_mem _ hx))]

/-- `df[name] = value` on a frame that has the column overwrites in place. -/
theorem setCol_present_eq (df : DF) (n : String) (c : Cell)
    (h : (df.cols.any (fun p => p.1 == n)) = true) :
    setCol df n c = ⟨df.cols.map (fun p =>
      if p.1 == n then (p.1, List.replicate (dfHeight df) c) else p)⟩ := by
  unfold setCol
  rw [if_pos h]

theorem setCol_hasCol (df : DF) (n : String) (c : Cell) :
    ∃ p ∈ (setCol df n c).cols, p.1 = n := by
  unfold setCol
  by_cases h : (df.cols.any (fun p => p.1 == n)) = true
  · rw [if_pos h]
    obtain ⟨p, hp, hpn⟩ := List.any_eq_true.mp h
    refine ⟨(p.1, List.replicate (dfHeight df) c), ?_, by simpa using hpn⟩
    have : (if p.1 == n then (p.1, List.replicate (dfHeight df) c) else p) =
        (p.1, List.replicate (dfHeight df) c) := by
      rw [if_pos hpn]
    exact this ▸ List.mem_map_of_mem _ hp
  · rw [if_neg h]
    exact ⟨(n, List.replicate (dfHeight df) c),
      List.mem_append.mpr (Or.inr (List.mem_singleton.mpr rfl)), rfl⟩

theorem hasCol_map (l : List (String × List Cell))
    (F : String × List Cell → String × List Cell)
    (hF : ∀ p, (F p).1 = p.1) (n : String)
    (h : ∃ p ∈ l, p.1 = n) : ∃ p ∈ l.map F, p.1 = n := by
  obtain ⟨p, hp, hpn⟩ := h
  exact ⟨F p, List.mem_map_of_mem F hp, (hF p).trans hpn⟩

theorem hasCol_projectCols (df : DF) (n : String) (hn : n ∈ AVAILABLE_COLUMNS)
    (h : ∃ p ∈ df.cols, p.1 = n) : ∃ p ∈ (projectCols df).cols, p.1 = n := by
  obtain ⟨p, hp, hpn⟩ := h
  refine ⟨p, ?_, hpn⟩
  exact List.mem_flatMap.mpr ⟨n, hn,
    List.mem_filter.mpr ⟨hp, by simpa using hpn⟩⟩

/-- On canonical column names, the rename dictionary is at most the identity
entry for CASO. -/
theorem buildColMapping_canonical (names : List String)
    (h : ∀ n ∈ names, n ∈ AVAILABLE_COLUMNS) :
    buildColMapping names = [] ∨ buildColMapping names = [("CASO", "CASO")] := by
  have hno : ∀ (key : String), key ∈ ["IDRechazo", "Responsable de Caso",
      "Valor homologación"] →
      names.find? (fun n => normName n == normName key) = none := by
    intro key hkey
    apply List.find?_eq_none.mpr
    intro n hn
    have hA := h n hn
    simp only [AVAILABLE_COLUMNS, List.mem_cons, List.not_mem_nil,
      or_false] at hA
    simp only [List.mem_cons, List.not_mem_nil, or_false] at hkey
    rcases hkey with rfl | rfl | rfl <;>
      (rcases hA with rfl | rfl | rfl | rfl | rfl | rfl <;> decide)
  rcases hfc : names.find? (fun n => normName n == normName "Caso")
      with _ | n0
  · left
    unfold buildColMapping COLUMN_MAPPING
    simp only [List.filterMap_cons, hno "IDRechazo" (by decide), hfc,
      hno "Responsable de Caso" (by decide),
      hno "Valor homologación" (by decide), Option.map_none',
      List.filterMap_nil]
  · right
    have hpred := List.find?_some hfc
    have hmem := List.mem_of_find?_eq_some hfc
    have hA := h n0 hmem
    have hn0 : n0 = "CASO" := by
      simp only [AVAILABLE_COLUMNS, List.mem_cons, List.not_mem_nil,
        or_false] at hA
      rcases hA with rfl | rfl | rfl | rfl | rfl | rfl <;>
        first
        | rfl
        | (exfalso; revert hpred; decide)
    subst hn0
    unfold buildColMapping COLUMN_MAPPING
    simp only [List.filterMap_cons, hno "IDRechazo" (by decide), hfc,
      hno "Responsable de Caso" (by decide),
      hno "Valor homologación" (by decide), Option.map_none',
      Option.map_some', List.filterMap_nil]

/-- Renaming is the identity on a frame with canonical column names. -/
theorem renameCols_canonical (df : DF)
    (h : ∀ c ∈ df.cols, c.1 ∈ AVAILABLE_COLUMNS) : renameCols df = df := by
  simp only [renameCols]
  have hnames : ∀ n ∈ df.cols.map (fun c => c.1), n ∈ AVAILABLE_COLUMNS := by
    intro n hn
    obtain ⟨c, hc, rfl⟩ := List.mem_map.mp hn
    exact h c hc
  rcases buildColMapping_canonical (df.cols.map (fun c => c.1)) hnames
      with hm | hm <;> rw [hm]
  · exact congrArg DF.mk (map_mem_id _ _ (fun c _ => rfl))
  · refine congrArg DF.mk (map_mem_id _ _ ?_)
    intro c _
    obtain ⟨c1, c2⟩ := c
    by_cases hc1 : ("CASO" == c1) = true
    · simp only [List.find?_cons, hc1]
      have h2 : "CASO" = c1 := by simpa using hc1
      rw [← h2]
    · simp only [List.find?_cons, hc1]
      rfl

/-- The column map applied by `coerceNumericCol _ "RECHAZOID"`. -/
def coerceF : String × List Cell → String × List Cell :=
  fun p => if p.1 == "RECHAZOID" then (p.1, p.2.map coerceCell) else p

/-- The column map applied by `normStringCol _ n`. -/
def normF (n : String) : String × List Cell → String × List Cell :=
  fun p => if p.1 == n then (p.1, p.2.map normStrCell) else p

theorem coerceNumericCol_eq (df : DF) :
    coerceNumericCol df "RECHAZOID" = ⟨df.cols.map coerceF⟩ := rfl

theorem normStringCol_eq (df : DF) (n : String) :
    normStringCol df n = ⟨df.cols.map (normF n)⟩ := rfl

theorem coerceF_fst (p : String × List Cell) : (coerceF p).1 = p.1 := by
  unfold coerceF
  split <;> rfl

theorem normF_fst (n : String) (p : String × List Cell) :
    ((normF n) p).1 = p.1 := by
  unfold normF
  split <;> rfl

theorem coerceF_len (p : String × List Cell) :
    ((coerceF p).2).length = p.2.length := by
  unfold coerceF
  split
  · exact List.length_map _ _
  · rfl

theorem normF_len (n : String) (p : String × List Cell) :
    (((normF n) p).2).length = p.2.length := by
  unfold normF
  split
  · exact List.length_map _ _
  · rfl

theorem coerceF_of_ne (p : String × List Cell) (h : ¬ p.1 = "RECHAZOID") :
    coerceF p = p := by
  unfold coerceF
  rw [if_neg (by simpa using h)]

theorem coerceF_of_eq (p : String × List Cell) (h : p.1 = "RECHAZOID") :
    coerceF p = (p.1, p.2.map coerceCell) := by
  unfold coerceF
  rw [if_pos (by simpa using h)]

theorem normF_of_ne (n : String) (p : String × List Cell) (h : ¬ p.1 = n) :
    (normF n) p = p := by
  unfold normF
  rw [if_neg (by simpa using h)]

theorem normF_of_eq (n : String) (p : String × List Cell) (h : p.1 = n) :
    (normF n) p = (p.1, p.2.map normStrCell) := by
  unfold normF
  rw [if_pos (by simpa using h)]

theorem mem_of_mem_projectCols (df : DF) :
    ∀ c ∈ (projectCols df).cols, c ∈ df.cols := by
  intro c hc
  obtain ⟨a, _, hc'⟩ := List.mem_flatMap.mp hc
  exact (List.mem_filter.mp hc').1

theorem dfHeight_of_heights (df : DF) (m : Nat)
    (h : ∀ c ∈ df.cols, c.2.length = m) (hne : df.cols ≠ []) :
    dfHeight df = m := by
  rcases df with ⟨_ | ⟨a, t⟩⟩
  · exact absurd rfl hne
  · exact h a (List.mem_cons_self a t)

theorem setCol_heights (df : DF) (n : String) (v : Cell) (m : Nat)
    (h : ∀ c ∈ df.cols, c.2.length = m) (hdm : dfHeight df = m) :
    ∀ c ∈ (setCol df n v).cols, c.2.length = m := by
  intro c hc
  unfold setCol at hc
  split at hc
  · obtain ⟨p, hp, hpc⟩ := List.mem_map.mp hc
    by_cases hpn : (p.1 == n) = true
    · rw [if_pos hpn] at hpc
      rw [← hpc]
      simp [hdm]
    · rw [if_neg hpn] at hpc
      rw [← hpc]
      exact h p hp
  · rcases List.mem_append.mp hc with hc' | hc'
    · exact h c hc'
    · rw [List.mem_singleton.mp hc']
      simp [hdm]

theorem setCol_ne_nil (df : DF) (n : String) (v : Cell) :
    (setCol df n v).cols ≠ [] := by
  unfold setCol
  split
  · rename_i h
    obtain ⟨p, hp, _⟩ := List.any_eq_true.mp h
    intro hmap
    rw [List.map_eq_nil_iff] at hmap
    rw [hmap] at hp
    cases hp
  · intro hx
    rcases List.append_eq_nil.mp hx with ⟨_, h2⟩
    cases h2

theorem setCol_hasCol_other (df : DF) (n k : String) (v : Cell)
    (h : ∃ p ∈ df.cols, p.1 = k) : ∃ p ∈ (setCol df n v).cols, p.1 = k := by
  unfold setCol
  split
  · apply hasCol_map df.cols _ _ _ h
    intro p
    split <;> rfl
  · obtain ⟨p, hp, hpk⟩ := h
    exact ⟨p, List.mem_append.mpr (Or.inl hp), hpk⟩

/-- The frame after renaming and stamping the two timestamp columns
(`transform_for_database` lines 124-126). -/
def tfStage2 (df : DF) (now : Nat) : DF :=
  setCol (setCol (renameCols df) "UPDATE_AT" (Cell.time now))
    "FECHA_SOLUCION_RECHAZO" (Cell.time now)

/-- The frame after the numeric coercion and the three string
normalizations (`transform_for_database` lines 128-135). -/
def tfStage4 (df : DF) (now : Nat) : DF :=
  normStringCol (normStringCol (normStringCol
    (coerceNumericCol (tfStage2 df now) "RECHAZOID") "CASO")
    "RESPONSABLE_DE_CASO") "VALOR_HOMOLOGACION"

theorem transform_eq (df : DF) (now : Nat) :
    transform_for_database df now =
      if ["RECHAZOID", "CASO", "RESPONSABLE_DE_CASO", "VALOR_HOMOLOGACION"].any
           (fun n => 2 ≤ countName (tfStage2 df now) n) then
        none
      else
        dropnaSubset (projectCols (tfStage4 df now)) "RECHAZOID" := rfl

theorem tfStage4_eq (df : DF) (now : Nat) :
    tfStage4 df now = ⟨(tfStage2 df now).cols.map
      (fun p => normF "VALOR_HOMOLOGACION" (normF "RESPONSABLE_DE_CASO"
        (normF "CASO" (coerceF p))))⟩ := by
  unfold tfStage4
  rw [coerceNumericCol_eq, normStringCol_eq, normStringCol_eq, normStringCol_eq]
  simp only [List.map_map]
  rfl

theorem dfHeight_map_of_len (l : List (String × List Cell))
    (F : String × List Cell → String × List Cell)
    (hF : ∀ p ∈ l, ((F p).2).length = p.2.length) :
    dfHeight ⟨l.map F⟩ = dfHeight ⟨l⟩ := by
  rcases l with _ | ⟨a, t⟩
  · rfl
  · exact hF a (List.mem_cons_self a t)

theorem renameCols_heights (df : DF) (m : Nat)
    (h : ∀ c ∈ df.cols, c.2.length = m) :
    ∀ c ∈ (renameCols df).cols, c.2.length = m := by
  intro c hc
  simp only [renameCols] at hc
  obtain ⟨p, hp, hpc⟩ := List.mem_map.mp hc
  rcases hm : (buildColMapping (df.cols.map (fun c => c.1))).find?
      (fun q => q.1 == p.1) with _ | q
  · rw [hm] at hpc
    rw [← hpc]
    exact h p hp
  · rw [hm] at hpc
    rw [← hpc]
    exact h p hp

theorem dfHeight_renameCols (df : DF) :
    dfHeight (renameCols df) = dfHeight df := by
  have h : renameCols df = ⟨df.cols.map (fun c =>
      match (buildColMapping (df.cols.map (fun c => c.1))).find?
          (fun p => p.1 == c.1) with
      | some p => (p.2, c.2)
      | none => c)⟩ := rfl
  rw [h]
  have h2 : dfHeight df = dfHeight (⟨df.cols⟩ : DF) := rfl
  rw [h2]
  apply dfHeight_map_of_len
  intro p _
  rcases hm : (buildColMapping (df.cols.map (fun c => c.1))).find?
      (fun q => q.1 == p.1) with _ | q
  · rw [hm]
  · rw [hm]

set_option maxHeartbeats 1000000 in
/-- Structure of any frame produced by `transform_for_database`: canonical
column order and names, timestamp and id columns present, canonical names
unique, id cells numeric-coerced and non-null, string cells normalized,
and rectangular. -/
theorem transform_shape (df out : DF) (now1 : Nat)
    (hrect : DF.Rectangular df)
    (htr : transform_for_database df now1 = some out) :
    ColsOrdered out ∧
    (∀ c ∈ out.cols, c.1 ∈ AVAILABLE_COLUMNS) ∧
    (∃ c ∈ out.cols, c.1 = "RECHAZOID") ∧
    (∃ c ∈ out.cols, c.1 = "UPDATE_AT") ∧
    (∃ c ∈ out.cols, c.1 = "FECHA_SOLUCION_RECHAZO") ∧
    (∀ n ∈ (["RECHAZOID", "CASO", "RESPONSABLE_DE_CASO",
        "VALOR_HOMOLOGACION"] : List String), countName out n ≤ 1) ∧
    (∀ c ∈ out.cols, c.1 = "RECHAZOID" →
      ∀ x ∈ c.2, coerceCell x = x ∧ cellNotNull x = true) ∧
    (∀ c ∈ out.cols,
      (c.1 = "CASO" ∨ c.1 = "RESPONSABLE_DE_CASO" ∨
        c.1 = "VALOR_HOMOLOGACION") →
      ∀ x ∈ c.2, x ≠ Cell.pyNone → normStrCell x = x) ∧
    (∃ m2, ∀ c ∈ out.cols, c.2.length = m2) := by
  rw [transform_eq] at htr
  split at htr
  · exact Option.noConfusion htr
  rename_i hguard
  rcases hfind : (projectCols (tfStage4 df now1)).cols.find?
      (fun p => p.1 == "RECHAZOID") with _ | c0
  · simp only [dropnaSubset, hfind] at htr
    exact Option.noConfusion htr
  · simp only [dropnaSubset, hfind, Option.some.injEq] at htr
    have hout : out = ⟨(projectCols (tfStage4 df now1)).cols.map
        (fun p => (p.1, applyMask (c0.2.map cellNotNull) p.2))⟩ := htr.symm
    have hc0mem : c0 ∈ (projectCols (tfStage4 df now1)).cols :=
      List.mem_of_find?_eq_some hfind
    have hc0name : c0.1 = "RECHAZOID" := by
      simpa using List.find?_some hfind
    have hH0 : ∀ c ∈ df.cols, c.2.length = dfHeight df := hrect
    have hH1 : ∀ c ∈ (renameCols df).cols, c.2.length = dfHeight df :=
      renameCols_heights df (dfHeight df) hH0
    have hB1 : dfHeight (renameCols df) = dfHeight df := dfHeight_renameCols df
    have hHU : ∀ c ∈ (setCol (renameCols df) "UPDATE_AT"
        (Cell.time now1)).cols, c.2.length = dfHeight df :=
      setCol_heights _ _ _ _ hH1 hB1
    have hBU : dfHeight (setCol (renameCols df) "UPDATE_AT"
        (Cell.time now1)) = dfHeight df :=
      dfHeight_of_heights _ _ hHU (setCol_ne_nil _ _ _)
    have hH2 : ∀ c ∈ (tfStage2 df now1).cols, c.2.length = dfHeight df :=
      setCol_heights _ _ _ _ hHU hBU
    have hGfst : ∀ p : String × List Cell,
        (normF "VALOR_HOMOLOGACION" (normF "RESPONSABLE_DE_CASO"
          (normF "CASO" (coerceF p)))).1 = p.1 := by
      intro p
      rw [normF_fst, normF_fst, normF_fst, coerceF_fst]
    have hdf4DF : tfStage4 df now1 = ⟨(tfStage2 df now1).cols.map
        (fun p => normF "VALOR_HOMOLOGACION" (normF "RESPONSABLE_DE_CASO"
          (normF "CASO" (coerceF p))))⟩ := tfStage4_eq df now1
    have hH4 : ∀ c ∈ (tfStage4 df now1).cols, c.2.length = dfHeight df := by
      intro c hc
      rw [hdf4DF] at hc
      obtain ⟨p, hp, hpc⟩ := List.mem_map.mp hc
      rw [← hpc, normF_len, normF_len, normF_len, coerceF_len]
      exact hH2 p hp
    have hHP : ∀ c ∈ (projectCols (tfStage4 df now1)).cols,
        c.2.length = dfHeight df := by
      intro c hc
      exact hH4 c (mem_of_mem_projectCols _ c hc)
    have hcount2 : ∀ n ∈ (["RECHAZOID", "CASO", "RESPONSABLE_DE_CASO",
        "VALOR_HOMOLOGACION"] : List String),
        countName (tfStage2 df now1) n ≤ 1 := by
      intro n hn
      by_contra hc
      apply hguard
      apply List.any_eq_true.mpr
      refine ⟨n, hn, ?_⟩
      simp only [decide_eq_true_eq]
      omega
    have hcount4 : ∀ n, countName (tfStage4 df now1) n =
        countName (tfStage2 df now1) n := by
      intro n
      rw [hdf4DF]
      exact countName_map _ _ hGfst n
    have hcountP : ∀ n ∈ AVAILABLE_COLUMNS,
        countName (projectCols (tfStage4 df now1)) n =
          countName (tfStage4 df now1) n := by
      intro n hn
      exact countName_projectCols _ n hn
    refine ⟨?_, ?_, ?_, ?_, ?_, ?_, ?_, ?_, ?_⟩
    · rw [hout]
      exact colsOrdered_map (projectCols (tfStage4 df now1)) _
        (fun p => rfl) (colsOrdered_projectCols (tfStage4 df now1))
    · rw [hout]
      intro c hc
      obtain ⟨p, hp, hpc⟩ := List.mem_map.mp hc
      rw [← hpc]
      exact names_projectCols _ p hp
    · rw [hout]
      exact ⟨_, List.mem_map_of_mem _ hc0mem, hc0name⟩
    · rw [hout]
      have hasU2 : ∃ p ∈ (tfStage2 df now1).cols, p.1 = "UPDATE_AT" :=
        setCol_hasCol_other _ _ _ _ (setCol_hasCol _ _ _)
      have hasU4 : ∃ p ∈ (tfStage4 df now1).cols, p.1 = "UPDATE_AT" := by
        rw [hdf4DF]
        exact hasCol_map _ _ hGfst _ hasU2
      obtain ⟨p, hp, hpn⟩ :=
        hasCol_projectCols (tfStage4 df now1) _ (by decide) hasU4
      exact ⟨_, List.mem_map_of_mem _ hp, hpn⟩
    · rw [hout]
      have hasF2 : ∃ p ∈ (tfStage2 df now1).cols,
          p.1 = "FECHA_SOLUCION_RECHAZO" := setCol_hasCol _ _ _
      have hasF4 : ∃ p ∈ (tfStage4 df now1).cols,
          p.1 = "FECHA_SOLUCION_RECHAZO" := by
        rw [hdf4DF]
        exact hasCol_map _ _ hGfst _ hasF2
      obtain ⟨p, hp, hpn⟩ :=
        hasCol_projectCols (tfStage4 df now1) _ (by decide) hasF4
      exact ⟨_, List.mem_map_of_mem _ hp, hpn⟩
    · rw [hout]
      intro n hn
      have hmem := hn
      simp only [List.mem_cons, List.not_mem_nil, or_false] at hmem
      have hnA : n ∈ AVAILABLE_COLUMNS := by
        rcases hmem with rfl | rfl | rfl | rfl <;> decide
      have h1 : countName (DF.mk ((projectCols (tfStage4 df now1)).cols.map
          (fun p => (p.1, applyMask (c0.2.map cellNotNull) p.2)))) n =
          countName (projectCols (tfStage4 df now1)) n :=
        countName_map (projectCols (tfStage4 df now1))
          (fun p => (p.1, applyMask (c0.2.map cellNotNull) p.2))
          (fun p => rfl) n
      rw [h1, hcountP n hnA, hcount4 n]
      exact hcount2 n hn
    · rw [hout]
      intro c hc hcn
      obtain ⟨p, hp, hpc⟩ := List.mem_map.mp hc
      have hpn : p.1 = "RECHAZOID" := by
        rw [← hpc] at hcn
        exact hcn
      have hcount1 : ((projectCols (tfStage4 df now1)).cols.filter
          (fun p => p.1 == "RECHAZOID")).length ≤ 1 := by
        show countName (projectCols (tfStage4 df now1)) "RECHAZOID" ≤ 1
        rw [hcountP _ (by decide), hcount4]
        exact hcount2 _ (by decide)
      have hpeq : p = c0 :=
        length_le_one_mem_eq _ hcount1 p
          (List.mem_filter.mpr ⟨hp, by simpa using hpn⟩) c0
          (List.mem_filter.mpr ⟨hc0mem, by simpa using hc0name⟩)
      have hc2 : c.2 = dropnaCells c0.2 := by
        rw [← hpc, hpeq]
        show applyMask (c0.2.map cellNotNull) c0.2 = dropnaCells c0.2
        exact applyMask_self c0.2
      have hc0fix : ∀ x ∈ c0.2, coerceCell x = x := by
        have hc0df4 : c0 ∈ (tfStage4 df now1).cols :=
          mem_of_mem_projectCols _ c0 hc0mem
        rw [hdf4DF] at hc0df4
        obtain ⟨q, hq, hqc⟩ := List.mem_map.mp hc0df4
        have hq0 : q.1 = c0.1 := by
          rw [← hqc]
          exact (hGfst q).symm
        have hq1 : q.1 = "RECHAZOID" := hq0.trans hc0name
        have e1 : coerceF q = (q.1, q.2.map coerceCell) :=
          coerceF_of_eq q hq1
        have e2 : normF "CASO" (q.1, q.2.map coerceCell) =
            (q.1, q.2.map coerceCell) := by
          apply normF_of_ne
          show ¬ q.1 = "CASO"
          rw [hq1]
          decide
        have e3 : normF "RESPONSABLE_DE_CASO" (q.1, q.2.map coerceCell) =
            (q.1, q.2.map coerceCell) := by
          apply normF_of_ne
          show ¬ q.1 = "RESPONSABLE_DE_CASO"
          rw [hq1]
          decide
        have e4 : normF "VALOR_HOMOLOGACION" (q.1, q.2.map coerceCell) =
            (q.1, q.2.map coerceCell) := by
          apply normF_of_ne
          show ¬ q.1 = "VALOR_HOMOLOGACION"
          rw [hq1]
          decide
        have hc0eq : c0 = (q.1, q.2.map coerceCell) := by
          rw [← hqc]
          show normF "VALOR_HOMOLOGACION" (normF "RESPONSABLE_DE_CASO"
            (normF "CASO" (coerceF q))) = _
          rw [e1, e2, e3, e4]
        intro x hx
        rw [hc0eq] at hx
        obtain ⟨y, _, hy⟩ := List.mem_map.mp hx
        rw [← hy]
        exact coerceCell_idem y
      intro x hx
      rw [hc2] at hx
      have hx2 := List.mem_filter.mp hx
      exact ⟨hc0fix x hx2.1, hx2.2⟩
    · rw [hout]
      intro c hc hcn
      obtain ⟨p, hp, hpc⟩ := List.mem_map.mp hc
      have hpn : p.1 = "CASO" ∨ p.1 = "RESPONSABLE_DE_CASO" ∨
          p.1 = "VALOR_HOMOLOGACION" := by
        rw [← hpc] at hcn
        exact hcn
      have hpfix : ∀ x ∈ p.2, x ≠ Cell.pyNone → normStrCell x = x := by
        have hpdf4 : p ∈ (tfStage4 df now1).cols :=
          mem_of_mem_projectCols _ p hp
        rw [hdf4DF] at hpdf4
        obtain ⟨q, hq, hqc⟩ := List.mem_map.mp hpdf4
        have hq0 : q.1 = p.1 := by
          rw [← hqc]
          exact (hGfst q).symm
        rcases hpn with h1 | h1 | h1
        · have hq2 : q.1 = "CASO" := hq0.trans h1
          have e1 : coerceF q = q := by
            apply coerceF_of_ne
            rw [hq2]
            decide
          have e2 : normF "CASO" q = (q.1, q.2.map normStrCell) :=
            normF_of_eq _ q hq2
          have e3 : normF "RESPONSABLE_DE_CASO" (q.1, q.2.map normStrCell) =
              (q.1, q.2.map normStrCell) := by
            apply normF_of_ne
            show ¬ q.1 = "RESPONSABLE_DE_CASO"
            rw [hq2]
            decide
          have e4 : normF "VALOR_HOMOLOGACION" (q.1, q.2.map normStrCell) =
              (q.1, q.2.map normStrCell) := by
            apply normF_of_ne
            show ¬ q.1 = "VALOR_HOMOLOGACION"
            rw [hq2]
            decide
          have hpeq : p = (q.1, q.2.map normStrCell) := by
            rw [← hqc]
            show normF "VALOR_HOMOLOGACION" (normF "RESPONSABLE_DE_CASO"
              (normF "CASO" (coerceF q))) = _
            rw [e1, e2, e3, e4]
          intro x hx hne
          rw [hpeq] at hx
          obtain ⟨y, _, hy⟩ := List.mem_map.mp hx
          rw [← hy]
          exact normStrCell_idem_of_ne y (by rw [hy]; exact hne)
        · have hq2 : q.1 = "RESPONSABLE_DE_CASO" := hq0.trans h1
          have e1 : coerceF q = q := by
            apply coerceF_of_ne
            rw [hq2]
            decide
          have e2 : normF "CASO" q = q := by
            apply normF_of_ne
            rw [hq2]
            decide
          have e3 : normF "RESPONSABLE_DE_CASO" q =
              (q.1, q.2.map normStrCell) := normF_of_eq _ q hq2
          have e4 : normF "VALOR_HOMOLOGACION" (q.1, q.2.map normStrCell) =
              (q.1, q.2.map normStrCell) := by
            apply normF_of_ne
            show ¬ q.1 = "VALOR_HOMOLOGACION"
            rw [hq2]
            decide
          have hpeq : p = (q.1, q.2.map normStrCell) := by
            rw [← hqc]
            show normF "VALOR_HOMOLOGACION" (normF "RESPONSABLE_DE_CASO"
              (normF "CASO" (coerceF q))) = _
            rw [e1, e2, e3, e4]
          intro x hx hne
          rw [hpeq] at hx
          obtain ⟨y, _, hy⟩ := List.mem_map.mp hx
          rw [← hy]
          exact normStrCell_idem_of_ne y (by rw [hy]; exact hne)
        · have hq2 : q.1 = "VALOR_HOMOLOGACION" := hq0.trans h1
          have e1 : coerceF q = q := by
            apply coerceF_of_ne
            rw [hq2]
            decide
          have e2 : normF "CASO" q = q := by
            apply normF_of_ne
            rw [hq2]
            decide
          have e3 : normF "RESPONSABLE_DE_CASO" q = q := by
            apply normF_of_ne
            rw [hq2]
            decide
          have e4 : normF "VALOR_HOMOLOGACION" q =
              (q.1, q.2.map normStrCell) := normF_of_eq _ q hq2
          have hpeq : p = (q.1, q.2.map normStrCell) := by
            rw [← hqc]
            show normF "VALOR_HOMOLOGACION" (normF "RESPONSABLE_DE_CASO"
              (normF "CASO" (coerceF q))) = _
            rw [e1, e2, e3, e4]
          intro x hx hne
          rw [hpeq] at hx
          obtain ⟨y, _, hy⟩ := List.mem_map.mp hx
          rw [← hy]
          exact normStrCell_idem_of_ne y (by rw [hy]; exact hne)
      intro x hx hne
      rw [← hpc] at hx
      exact hpfix x (mem_applyMask _ _ x hx) hne
    · rw [hout]
      refine ⟨(applyMask (c0.2.map cellNotNull) c0.2).length, ?_⟩
      intro c hc
      obtain ⟨p, hp, hpc⟩ := List.mem_map.mp hc
      rw [← hpc]
      show (applyMask (c0.2.map cellNotNull) p.2).length = _
      apply applyMask_length_eq
      rw [hHP p hp, hHP c0 hc0mem]

/-- Membership characterization of `df[name] = value` when the column is
already present. -/
theorem setCol_mem_of_present (df : DF) (n : String) (v : Cell)
    (hpres : (df.cols.any (fun p => p.1 == n)) = true) :
    ∀ c ∈ (setCol df n v).cols, ∃ p ∈ df.cols, c.1 = p.1 ∧
      ((p.1 = n ∧ c = (p.1, List.replicate (dfHeight df) v)) ∨
       (¬ p.1 = n ∧ c = p)) := by
  intro c hc
  rw [setCol_present_eq df n v hpres] at hc
  obtain ⟨p, hp, hpc⟩ := List.mem_map.mp hc
  by_cases hn : (p.1 == n) = true
  · rw [if_pos hn] at hpc
    exact ⟨p, hp, by rw [← hpc], Or.inl ⟨by simpa using hn, hpc.symm⟩⟩
  · rw [if_neg hn] at hpc
    exact ⟨p, hp, by rw [← hpc], Or.inr ⟨by simpa using hn, hpc.symm⟩⟩

theorem setCol_countName (df : DF) (n k : String) (v : Cell)
    (hpres : (df.cols.any (fun p => p.1 == n)) = true) :
    countName (setCol df n v) k = countName df k := by
  rw [setCol_present_eq df n v hpres]
  apply countName_map
  intro p
  show (if p.1 == n then (p.1, List.replicate (dfHeight df) v) else p).1 = p.1
  split <;> rfl

theorem setCol_colsOrdered (df : DF) (n : String) (v : Cell)
    (hpres : (df.cols.any (fun p => p.1 == n)) = true)
    (h : ColsOrdered df) : ColsOrdered (setCol df n v) := by
  rw [setCol_present_eq df n v hpres]
  apply colsOrdered_map df _ _ h
  intro p
  show (if p.1 == n then (p.1, List.replicate (dfHeight df) v) else p).1 = p.1
  split <;> rfl

/-- Dropping the timestamp columns ignores a column map that fixes every
non-timestamp column and preserves labels. -/
theorem stripTimes_map (l : List (String × List Cell))
    (F : String × List Cell → String × List Cell)
    (hF : ∀ p, (F p).1 = p.1)
    (hfix : ∀ p ∈ l, ¬ p.1 = "UPDATE_AT" → ¬ p.1 = "FECHA_SOLUCION_RECHAZO" →
      F p = p) :
    stripTimes ⟨l.map F⟩ = stripTimes ⟨l⟩ := by
  unfold stripTimes
  congr 1
  show (l.map F).filter
      (fun p => !(p.1 == "UPDATE_AT" || p.1 == "FECHA_SOLUCION_RECHAZO")) = _
  rw [List.filter_map]
  have h1 : l.filter ((fun p =>
      !(p.1 == "UPDATE_AT" || p.1 == "FECHA_SOLUCION_RECHAZO")) ∘ F) =
      l.filter (fun p =>
        !(p.1 == "UPDATE_AT" || p.1 == "FECHA_SOLUCION_RECHAZO")) := by
    apply List.filter_congr
    intro p _
    simp [Function.comp, hF]
  rw [h1]
  apply map_mem_id
  intro p hp
  have hp2 := List.mem_filter.mp hp
  have hp3 := hp2.2
  simp only [Bool.not_eq_true', Bool.or_eq_false_iff,
    beq_eq_false_iff_ne, ne_eq] at hp3
  exact hfix p hp2.1 hp3.1 hp3.2

set_option maxHeartbeats 1000000 in
/-- On a frame with the structure produced by the transform, running the
transform again succeeds and only refreshes the two timestamp columns. -/
theorem transform_idem_aux (out : DF) (now2 : Nat)
    (hOrd : ColsOrdered out)
    (hNames : ∀ c ∈ out.cols, c.1 ∈ AVAILABLE_COLUMNS)
    (hRech : ∃ c ∈ out.cols, c.1 = "RECHAZOID")
    (hU : ∃ c ∈ out.cols, c.1 = "UPDATE_AT")
    (hF : ∃ c ∈ out.cols, c.1 = "FECHA_SOLUCION_RECHAZO")
    (hCnt : ∀ n ∈ (["RECHAZOID", "CASO", "RESPONSABLE_DE_CASO",
        "VALOR_HOMOLOGACION"] : List String), countName out n ≤ 1)
    (hRcells : ∀ c ∈ out.cols, c.1 = "RECHAZOID" →
      ∀ x ∈ c.2, coerceCell x = x ∧ cellNotNull x = true)
    (hScells : ∀ c ∈ out.cols,
      (c.1 = "CASO" ∨ c.1 = "RESPONSABLE_DE_CASO" ∨
        c.1 = "VALOR_HOMOLOGACION") → ∀ x ∈ c.2, normStrCell x = x)
    (hHeights : ∃ m2, ∀ c ∈ out.cols, c.2.length = m2) :
    transform_for_database out now2 = some (tfStage2 out now2) ∧
      stripTimes (tfStage2 out now2) = stripTimes out := by
  obtain ⟨m2, hH⟩ := hHeights
  obtain ⟨cR, hcR, hcRn⟩ := hRech
  have hne : out.cols ≠ [] := by
    intro h
    rw [h] at hcR
    cases hcR
  have hdh : dfHeight out = m2 := dfHeight_of_heights out m2 hH hne
  have htf2 : tfStage2 out now2 =
      setCol (setCol out "UPDATE_AT" (Cell.time now2))
        "FECHA_SOLUCION_RECHAZO" (Cell.time now2) := by
    unfold tfStage2
    rw [renameCols_canonical out hNames]
  have hUany : (out.cols.any (fun p => p.1 == "UPDATE_AT")) = true := by
    obtain ⟨p, hp, hpn⟩ := hU
    exact List.any_eq_true.mpr ⟨p, hp, by simpa using hpn⟩
  have hFd : ∃ p ∈ (setCol out "UPDATE_AT" (Cell.time now2)).cols,
      p.1 = "FECHA_SOLUCION_RECHAZO" :=
    setCol_hasCol_other out _ _ _ hF
  have hFany : ((setCol out "UPDATE_AT" (Cell.time now2)).cols.any
      (fun p => p.1 == "FECHA_SOLUCION_RECHAZO")) = true := by
    obtain ⟨p, hp, hpn⟩ := hFd
    exact List.any_eq_true.mpr ⟨p, hp, by simpa using hpn⟩
  have hHU : ∀ c ∈ (setCol out "UPDATE_AT" (Cell.time now2)).cols,
      c.2.length = m2 := setCol_heights out _ _ m2 hH hdh
  have hdhU : dfHeight (setCol out "UPDATE_AT" (Cell.time now2)) = m2 :=
    dfHeight_of_heights _ m2 hHU (setCol_ne_nil _ _ _)
  have hH2 : ∀ c ∈ (tfStage2 out now2).cols, c.2.length = m2 := by
    rw [htf2]
    exact setCol_heights _ _ _ m2 hHU hdhU
  have hdf2mem : ∀ c ∈ (tfStage2 out now2).cols, ∃ q ∈ out.cols,
      c.1 = q.1 ∧ (c = q ∨
        ((c.1 = "UPDATE_AT" ∨ c.1 = "FECHA_SOLUCION_RECHAZO") ∧
          c.2 = List.replicate m2 (Cell.time now2))) := by
    intro c hc
    rw [htf2] at hc
    obtain ⟨p, hp, hcp1, hcase⟩ := setCol_mem_of_present _
      "FECHA_SOLUCION_RECHAZO" (Cell.time now2) hFany c hc
    obtain ⟨q, hq, hpq1, hcase2⟩ := setCol_mem_of_present out
      "UPDATE_AT" (Cell.time now2) hUany p hp
    refine ⟨q, hq, hcp1.trans hpq1, ?_⟩
    rcases hcase with ⟨hn, hceq⟩ | ⟨hn, hceq⟩
    · right
      constructor
      · right
        rw [hcp1, hn]
      · rw [hceq]
        show List.replicate (dfHeight (setCol out "UPDATE_AT"
          (Cell.time now2))) (Cell.time now2) = _
        rw [hdhU]
    · rcases hcase2 with ⟨hn2, hpeq⟩ | ⟨hn2, hpeq⟩
      · right
        constructor
        · left
          rw [hcp1, hpq1, hn2]
        · rw [hceq, hpeq]
          show List.replicate (dfHeight out) (Cell.time now2) = _
          rw [hdh]
      · left
        rw [hceq, hpeq]
  have hCnt2 : ∀ n ∈ (["RECHAZOID", "CASO", "RESPONSABLE_DE_CASO",
      "VALOR_HOMOLOGACION"] : List String),
      countName (tfStage2 out now2) n ≤ 1 := by
    intro n hn
    have e1 : countName (tfStage2 out now2) n =
        countName (setCol out "UPDATE_AT" (Cell.time now2)) n := by
      rw [htf2]
      exact setCol_countName _ "FECHA_SOLUCION_RECHAZO" n
        (Cell.time now2) hFany
    have e2 : countName (setCol out "UPDATE_AT" (Cell.time now2)) n =
        countName out n :=
      setCol_countName out "UPDATE_AT" n (Cell.time now2) hUany
    rw [e1, e2]
    exact hCnt n hn
  have hguard2 : ¬ ((["RECHAZOID", "CASO", "RESPONSABLE_DE_CASO",
      "VALOR_HOMOLOGACION"] : List String).any
        (fun n => 2 ≤ countName (tfStage2 out now2) n)) = true := by
    intro hcontra
    obtain ⟨n, hn, hd⟩ := List.any_eq_true.mp hcontra
    simp only [decide_eq_true_eq] at hd
    have := hCnt2 n hn
    omega
  have hOrd2 : ColsOrdered (tfStage2 out now2) := by
    rw [htf2]
    exact setCol_colsOrdered _ _ _ hFany
      (setCol_colsOrdered out _ _ hUany hOrd)
  have hGid : ∀ c ∈ (tfStage2 out now2).cols,
      normF "VALOR_HOMOLOGACION" (normF "RESPONSABLE_DE_CASO"
        (normF "CASO" (coerceF c))) = c := by
    intro c hc
    obtain ⟨q, hq, hcq, hcase⟩ := hdf2mem c hc
    have hcA : c.1 ∈ AVAILABLE_COLUMNS := hcq ▸ hNames q hq
    simp only [AVAILABLE_COLUMNS, List.mem_cons, List.not_mem_nil,
      or_false] at hcA
    rcases hcA with h1 | h1 | h1 | h1 | h1 | h1
    · have hceq : c = q := by
        rcases hcase with h | ⟨hu, _⟩
        · exact h
        · exfalso
          rcases hu with hu | hu <;>
            (rw [h1] at hu; exact absurd hu (by decide))
      have hfix : ∀ x ∈ c.2, coerceCell x = x := by
        intro x hx
        rw [hceq] at hx
        exact (hRcells q hq (hcq.symm.trans h1).symm.symm x hx).1
      rw [coerceF_of_eq c h1, map_mem_id c.2 coerceCell hfix, Prod.mk.eta]
      rw [normF_of_ne "CASO" c (by rw [h1]; decide)]
      rw [normF_of_ne "RESPONSABLE_DE_CASO" c (by rw [h1]; decide)]
      rw [normF_of_ne "VALOR_HOMOLOGACION" c (by rw [h1]; decide)]
    · have hceq : c = q := by
        rcases hcase with h | ⟨hu, _⟩
        · exact h
        · exfalso
          rcases hu with hu | hu <;>
            (rw [h1] at hu; exact absurd hu (by decide))
      have hfix : ∀ x ∈ c.2, normStrCell x = x := by
        intro x hx
        rw [hceq] at hx
        exact hScells q hq (Or.inl (hcq.symm.trans h1)) x hx
      rw [coerceF_of_ne c (by rw [h1]; decide)]
      rw [normF_of_eq "CASO" c h1, map_mem_id c.2 normStrCell hfix,
        Prod.mk.eta]
      rw [normF_of_ne "RESPONSABLE_DE_CASO" c (by rw [h1]; decide)]
      rw [normF_of_ne "VALOR_HOMOLOGACION" c (by rw [h1]; decide)]
    · have hceq : c = q := by
        rcases hcase with h | ⟨hu, _⟩
        · exact h
        · exfalso
          rcases hu with hu | hu <;>
            (rw [h1] at hu; exact absurd hu (by decide))
      have hfix : ∀ x ∈ c.2, normStrCell x = x := by
        intro x hx
        rw [hceq] at hx
        exact hScells q hq (Or.inr (Or.inl (hcq.symm.trans h1))) x hx
      rw [coerceF_of_ne c (by rw [h1]; decide)]
      rw [normF_of_ne "CASO" c (by rw [h1]; decide)]
      rw [normF_of_eq "RESPONSABLE_DE_CASO" c h1,
        map_mem_id c.2 normStrCell hfix, Prod.mk.eta]
      rw [normF_of_ne "VALOR_HOMOLOGACION" c (by rw [h1]; decide)]
    · have hceq : c = q := by
        rcases hcase with h | ⟨hu, _⟩
        · exact h
        · exfalso
          rcases hu with hu | hu <;>
            (rw [h1] at hu; exact absurd hu (by decide))
      have hfix : ∀ x ∈ c.2, normStrCell x = x := by
        intro x hx
        rw [hceq] at hx
        exact hScells q hq (Or.inr (Or.inr (hcq.symm.trans h1))) x hx
      rw [coerceF_of_ne c (by rw [h1]; decide)]
      rw [normF_of_ne "CASO" c (by rw [h1]; decide)]
      rw [normF_of_ne "RESPONSABLE_DE_CASO" c (by rw [h1]; decide)]
      rw [normF_of_eq "VALOR_HOMOLOGACION" c h1,
        map_mem_id c.2 normStrCell hfix, Prod.mk.eta]
    · rw [coerceF_of_ne c (by rw [h1]; decide)]
      rw [normF_of_ne "CASO" c (by rw [h1]; decide)]
      rw [normF_of_ne "RESPONSABLE_DE_CASO" c (by rw [h1]; decide)]
      rw [normF_of_ne "VALOR_HOMOLOGACION" c (by rw [h1]; decide)]
    · rw [coerceF_of_ne c (by rw [h1]; decide)]
      rw [normF_of_ne "CASO" c (by rw [h1]; decide)]
      rw [normF_of_ne "RESPONSABLE_DE_CASO" c (by rw [h1]; decide)]
      rw [normF_of_ne "VALOR_HOMOLOGACION" c (by rw [h1]; decide)]
  have hE4 : tfStage4 out now2 = tfStage2 out now2 := by
    rw [tfStage4_eq]
    have hm := map_mem_id (tfStage2 out now2).cols
      (fun p => normF "VALOR_HOMOLOGACION" (normF "RESPONSABLE_DE_CASO"
        (normF "CASO" (coerceF p)))) hGid
    rw [hm]
  have hRechD : ∃ p ∈ (tfStage2 out now2).cols, p.1 = "RECHAZOID" := by
    rw [htf2]
    exact setCol_hasCol_other _ _ _ _ (setCol_hasCol_other out _ _ _
      ⟨cR, hcR, hcRn⟩)
  constructor
  · rw [transform_eq, if_neg hguard2, hE4, projectCols_of_ordered _ hOrd2]
    rcases hfind2 : (tfStage2 out now2).cols.find?
        (fun p => p.1 == "RECHAZOID") with _ | c1
    · exfalso
      obtain ⟨p, hp, hpn⟩ := hRechD
      exact (List.find?_eq_none.mp hfind2 p hp) (by simpa using hpn)
    · have hc1mem : c1 ∈ (tfStage2 out now2).cols :=
        List.mem_of_find?_eq_some hfind2
      have hc1n : c1.1 = "RECHAZOID" := by
        simpa using List.find?_some hfind2
      have hc1nn : ∀ x ∈ c1.2, cellNotNull x = true := by
        obtain ⟨q, hq, hcq, hcase⟩ := hdf2mem c1 hc1mem
        rcases hcase with hceq | ⟨hu, _⟩
        · intro x hx
          rw [hceq] at hx
          exact (hRcells q hq (hcq.symm.trans hc1n).symm.symm x hx).2
        · exfalso
          rcases hu with hu | hu <;>
            (rw [hc1n] at hu; exact absurd hu (by decide))
      have hc1len : c1.2.length = m2 := hH2 c1 hc1mem
      have hmask : c1.2.map cellNotNull =
          List.replicate c1.2.length true :=
        map_cellNotNull_replicate c1.2 hc1nn
      have hmapid : (tfStage2 out now2).cols.map
          (fun p => (p.1, applyMask (c1.2.map cellNotNull) p.2)) =
          (tfStage2 out now2).cols := by
        apply map_mem_id
        intro p hp
        show (p.1, applyMask (c1.2.map cellNotNull) p.2) = p
        have hlen : p.2.length = m2 := hH2 p hp
        have hid : applyMask (c1.2.map cellNotNull) p.2 = p.2 := by
          rw [hmask, hc1len, ← hlen]
          exact applyMask_replicate_true p.2
        rw [hid]
      simp only [dropnaSubset, hfind2]
      rw [hmapid]
  · have huFfst : ∀ p : String × List Cell,
        ((if p.1 == "UPDATE_AT"
          then (p.1, List.replicate (dfHeight out) (Cell.time now2))
          else p) : String × List Cell).1 = p.1 := by
      intro p
      split <;> rfl
    have hfFfst : ∀ p : String × List Cell,
        ((if p.1 == "FECHA_SOLUCION_RECHAZO"
          then (p.1, List.replicate (dfHeight (setCol out "UPDATE_AT"
            (Cell.time now2))) (Cell.time now2))
          else p) : String × List Cell).1 = p.1 := by
      intro p
      split <;> rfl
    have h1 : stripTimes (tfStage2 out now2) =
        stripTimes (setCol out "UPDATE_AT" (Cell.time now2)) := by
      have hB2 : tfStage2 out now2 =
          ⟨(setCol out "UPDATE_AT" (Cell.time now2)).cols.map
            (fun p => if p.1 == "FECHA_SOLUCION_RECHAZO"
              then (p.1, List.replicate (dfHeight (setCol out "UPDATE_AT"
                (Cell.time now2))) (Cell.time now2))
              else p)⟩ := by
        rw [htf2]
        exact setCol_present_eq _ _ _ hFany
      rw [hB2]
      apply stripTimes_map _ _ hfFfst
      intro p _ _ h2
      show (if p.1 == "FECHA_SOLUCION_RECHAZO" then _ else p) = p
      rw [if_neg (by simpa using h2)]
    have h2 : stripTimes (setCol out "UPDATE_AT" (Cell.time now2)) =
        stripTimes out := by
      have hB1 : setCol out "UPDATE_AT" (Cell.time now2) =
          ⟨out.cols.map (fun p => if p.1 == "UPDATE_AT"
            then (p.1, List.replicate (dfHeight out) (Cell.time now2))
            else p)⟩ :=
        setCol_present_eq out _ _ hUany
      rw [hB1]
      apply stripTimes_map _ _ huFfst
      intro p _ h1 _
      show (if p.1 == "UPDATE_AT" then _ else p) = p
      rw [if_neg (by simpa using h1)]
    exact h1.trans h2

/-- C3 (refutation): `transform_for_database` is not idempotent on every
validated input.  A validated table with a null in one of the three string
columns (legal: validation only needs one non-null somewhere across them) is
normalized to a stored `None`, which the second pass's `astype(str)`
(data_processor.py line 134) renders as the literal string "None" instead of
collapsing it back to a missing value, so the second output differs from the
first in a non-timestamp field. -/
theorem claim_C3_counterexample :
    (validate_data ⟨[("IDRechazo", [Cell.num 1]), ("Caso", [Cell.null]),
      ("Responsable de Caso", [Cell.str "B"]),
      ("Valor homologación", [Cell.str "C"])]⟩).1 = true ∧
    DF.Rectangular ⟨[("IDRechazo", [Cell.num 1]), ("Caso", [Cell.null]),
      ("Responsable de Caso", [Cell.str "B"]),
      ("Valor homologación", [Cell.str "C"])]⟩ ∧
    transform_for_database ⟨[("IDRechazo", [Cell.num 1]),
      ("Caso", [Cell.null]), ("Responsable de Caso", [Cell.str "B"]),
      ("Valor homologación", [Cell.str "C"])]⟩ 5 =
      some ⟨[("RECHAZOID", [Cell.num 1]), ("CASO", [Cell.pyNone]),
        ("RESPONSABLE_DE_CASO", [Cell.str "B"]),
        ("VALOR_HOMOLOGACION", [Cell.str "C"]),
        ("UPDATE_AT", [Cell.time 5]),
        ("FECHA_SOLUCION_RECHAZO", [Cell.time 5])]⟩ ∧
    transform_for_database ⟨[("RECHAZOID", [Cell.num 1]),
      ("CASO", [Cell.pyNone]), ("RESPONSABLE_DE_CASO", [Cell.str "B"]),
      ("VALOR_HOMOLOGACION", [Cell.str "C"]),
      ("UPDATE_AT", [Cell.time 5]),
      ("FECHA_SOLUCION_RECHAZO", [Cell.time 5])]⟩ 7 =
      some ⟨[("RECHAZOID", [Cell.num 1]), ("CASO", [Cell.str "None"]),
        ("RESPONSABLE_DE_CASO", [Cell.str "B"]),
        ("VALOR_HOMOLOGACION", [Cell.str "C"]),
        ("UPDATE_AT", [Cell.time 7]),
        ("FECHA_SOLUCION_RECHAZO", [Cell.time 7])]⟩ ∧
    stripTimes ⟨[("RECHAZOID", [Cell.num 1]), ("CASO", [Cell.str "None"]),
      ("RESPONSABLE_DE_CASO", [Cell.str "B"]),
      ("VALOR_HOMOLOGACION", [Cell.str "C"]),
      ("UPDATE_AT", [Cell.time 7]),
      ("FECHA_SOLUCION_RECHAZO", [Cell.time 7])]⟩ ≠
      stripTimes ⟨[("RECHAZOID", [Cell.num 1]), ("CASO", [Cell.pyNone]),
        ("RESPONSABLE_DE_CASO", [Cell.str "B"]),
        ("VALOR_HOMOLOGACION", [Cell.str "C"]),
        ("UPDATE_AT", [Cell.time 5]),
        ("FECHA_SOLUCION_RECHAZO", [Cell.time 5])]⟩ := by
  refine ⟨by decide, by unfold DF.Rectangular; decide, ?_, ?_, by decide⟩
  · decide
  · decide

/-- C3 (amended): for every validated (and rectangular) input table that the
transform accepts, re-applying `transform_for_database` to the output
succeeds and yields the same frame in every column except the two timestamp
columns, provided the output's CASO / RESPONSABLE_DE_CASO /
VALOR_HOMOLOGACION cells carry no stored `None` (that is, no cell of those
input columns was missing or stringified to "nan"); such a `None` would be
re-rendered by the second pass as the literal string "None". -/
theorem claim_C3_amended (df out : DF) (now1 now2 : Nat)
    (_hval : (validate_data df).1 = true)
    (hrect : DF.Rectangular df)
    (htr : transform_for_database df now1 = some out)
    (hnn : ∀ c ∈ out.cols,
      (c.1 = "CASO" ∨ c.1 = "RESPONSABLE_DE_CASO" ∨
        c.1 = "VALOR_HOMOLOGACION") → ∀ x ∈ c.2, x ≠ Cell.pyNone) :
    ∃ out2, transform_for_database out now2 = some out2 ∧
      stripTimes out2 = stripTimes out := by
  obtain ⟨hOrd, hNames, hRech, hU, hF, hCnt, hRcells, hScells, hHeights⟩ :=
    transform_shape df out now1 hrect htr
  have hScells2 : ∀ c ∈ out.cols,
      (c.1 = "CASO" ∨ c.1 = "RESPONSABLE_DE_CASO" ∨
        c.1 = "VALOR_HOMOLOGACION") → ∀ x ∈ c.2, normStrCell x = x :=
    fun c hc hn x hx => hScells c hc hn x hx (hnn c hc hn x hx)
  obtain ⟨hmain, hstrip⟩ := transform_idem_aux out now2 hOrd hNames hRech
    hU hF hCnt hRcells hScells2 hHeights
  exact ⟨tfStage2 out now2, hmain, hstrip⟩

/-- Concrete instance of the amended C3. -/
theorem claim_C3_amended_witness :
    (validate_data ⟨[("IDRechazo", [Cell.num 1]), ("Caso", [Cell.str "A"]),
      ("Responsable de Caso", [Cell.str "B"]),
      ("Valor homologación", [Cell.str "C"])]⟩).1 = true ∧
    DF.Rectangular ⟨[("IDRechazo", [Cell.num 1]), ("Caso", [Cell.str "A"]),
      ("Responsable de Caso", [Cell.str "B"]),
      ("Valor homologación", [Cell.str "C"])]⟩ ∧
    transform_for_database ⟨[("IDRechazo", [Cell.num 1]),
      ("Caso", [Cell.str "A"]), ("Responsable de Caso", [Cell.str "B"]),
      ("Valor homologación", [Cell.str "C"])]⟩ 5 =
      some ⟨[("RECHAZOID", [Cell.num 1]), ("CASO", [Cell.str "A"]),
        ("RESPONSABLE_DE_CASO", [Cell.str "B"]),
        ("VALOR_HOMOLOGACION", [Cell.str "C"]),
        ("UPDATE_AT", [Cell.time 5]),
        ("FECHA_SOLUCION_RECHAZO", [Cell.time 5])]⟩ ∧
    (∀ c ∈ (⟨[("RECHAZOID", [Cell.num 1]), ("CASO", [Cell.str "A"]),
        ("RESPONSABLE_DE_CASO", [Cell.str "B"]),
        ("VALOR_HOMOLOGACION", [Cell.str "C"]),
        ("UPDATE_AT", [Cell.time 5]),
        ("FECHA_SOLUCION_RECHAZO", [Cell.time 5])]⟩ : DF).cols,
      (c.1 = "CASO" ∨ c.1 = "RESPONSABLE_DE_CASO" ∨
        c.1 = "VALOR_HOMOLOGACION") → ∀ x ∈ c.2, x ≠ Cell.pyNone) ∧
    ∃ out2, transform_for_database ⟨[("RECHAZOID", [Cell.num 1]),
        ("CASO", [Cell.str "A"]), ("RESPONSABLE_DE_CASO", [Cell.str "B"]),
        ("VALOR_HOMOLOGACION", [Cell.str "C"]),
        ("UPDATE_AT", [Cell.time 5]),
        ("FECHA_SOLUCION_RECHAZO", [Cell.time 5])]⟩ 7 = some out2 ∧
      stripTimes out2 = stripTimes ⟨[("RECHAZOID", [Cell.num 1]),
        ("CASO", [Cell.str "A"]), ("RESPONSABLE_DE_CASO", [Cell.str "B"]),
        ("VALOR_HOMOLOGACION", [Cell.str "C"]),
        ("UPDATE_AT", [Cell.time 5]),
        ("FECHA_SOLUCION_RECHAZO", [Cell.time 5])]⟩ :=
  ⟨by decide, by unfold DF.Rectangular; decide, by decide, by decide,
    claim_C3_amended ⟨[("IDRechazo", [Cell.num 1]), ("Caso", [Cell.str "A"]),
        ("Responsable de Caso", [Cell.str "B"]),
        ("Valor homologación", [Cell.str "C"])]⟩
      ⟨[("RECHAZOID", [Cell.num 1]), ("CASO", [Cell.str "A"]),
        ("RESPONSABLE_DE_CASO", [Cell.str "B"]),
        ("VALOR_HOMOLOGACION", [Cell.str "C"]),
        ("UPDATE_AT", [Cell.time 5]),
        ("FECHA_SOLUCION_RECHAZO", [Cell.time 5])]⟩ 5 7
      (by decide) (by unfold DF.Rectangular; decide) (by decide)
      (by decide)⟩
